import Mathlib

/-!
Verification development for the JMX test-plan document model implemented in
`app/routers/jmx_editor.py`: schema registry, component/plan validation,
JMX XML generation, and best-effort JMX XML parsing.

The Python code is shallowly embedded: Python dicts that preserve insertion
order become association lists, dynamically-typed property values become the
`JValue` inductive, exceptions become `Option`, and the random UUID-based id
generator becomes a deterministic counter threaded through the parse (only
freshness/uniqueness of generated ids matters to the code, never their shape).
Recursion over untrusted XML is fuelled (structural on a `Nat`) so that every
definition is executable and kernel-reducible; entry points supply fuel larger
than the input, and fuel exhaustion simply stops early, which never weakens
the invariants proved below.
-/

/-- A dynamically-typed property value, the embedding of the `Any`-typed
entries of `JMXComponent.properties`.  `vInt` covers Python `int`, `vBool`
Python `bool`, `vStr` Python `str`, and `vPairs` the list-of-`{key,value}`
shape used by header lists.  (Floats do not occur in any property the
modelled operations touch, so numeric values are embedded as `Int`.) -/
inductive JValue where
  | vStr (s : String)
  | vInt (n : Int)
  | vBool (b : Bool)
  | vPairs (l : List (String × String))
  deriving Repr, DecidableEq

/-- Python `isinstance(value, (int, float))`.  Note that Python `bool` is a
subclass of `int`, so a boolean value also satisfies this test. -/
def isNumInstance : JValue → Bool
  | .vInt _ => true
  | .vBool _ => true
  | _ => false

/-- Python `isinstance(value, bool)`. -/
def isBoolInstance : JValue → Bool
  | .vBool _ => true
  | _ => false

/-- The numeric value used by Python comparisons on an `int/float` instance
(`True` compares as 1, `False` as 0). -/
def numVal : JValue → Int
  | .vInt n => n
  | .vBool b => if b then 1 else 0
  | _ => 0

/-- Python truthiness of a property value (`bool(value)`). -/
def pyTruthy : JValue → Bool
  | .vStr s => s ≠ ""
  | .vInt n => n ≠ 0
  | .vBool b => b
  | .vPairs l => l ≠ []

/-- Python `str(value)`.  For `vPairs` (a Python list) the rendering is a
placeholder: no modelled code path ever stringifies a list value. -/
def jStr : JValue → String
  | .vStr s => s
  | .vInt n => toString n
  | .vBool b => if b then "True" else "False"
  | .vPairs _ => "[...]"

/-- First-match lookup in an association list; the embedding of Python
`dict[key]` / `dict.get(key)` (keys of a real dict are unique, so first
match is the only match). -/
def dictGet {α : Type} : List (String × α) → String → Option α
  | [], _ => none
  | (k, v) :: rest, key => if key = k then some v else dictGet rest key

/-- Python `dict.get(key, default)`. -/
def dictGetD {α : Type} (m : List (String × α)) (key : String) (d : α) : α :=
  (dictGet m key).getD d

/-- Python `dict[key] = value`: replace the binding in place if the key is
present, otherwise append a new binding at the end (insertion order). -/
def dictSet {α : Type} : List (String × α) → String → α → List (String × α)
  | [], key, v => [(key, v)]
  | (k, w) :: rest, key, v =>
      if k = key then (k, v) :: rest else (k, w) :: dictSet rest key v

/-- The tree node of the document model: the `JMXComponent` pydantic model.
(The UI-only `position` dict of floats is omitted: no modelled operation
reads it.) -/
structure JMXComponent where
  id : String
  type : String
  name : String
  enabled : Bool := true
  properties : List (String × JValue) := []
  children : List String := []
  parent : Option String := none
  deriving Repr, DecidableEq

/-- The aggregate root: the `JMXTestPlan` pydantic model. -/
structure JMXTestPlan where
  id : String
  name : String := "Test Plan"
  components : List (String × JMXComponent) := []
  root_components : List String := []
  deriving Repr, DecidableEq

/-- One property schema entry of the component library.  Only the fields the
validator consults are carried (`type`, `required`, `min`, `max`); defaults,
options and placeholders are UI metadata the modelled operations never read. -/
structure PropDef where
  ptype : String
  required : Bool := false
  min : Option Int := none
  max : Option Int := none
  deriving Repr, DecidableEq

/-- One entry of `JMX_COMPONENT_LIBRARY`: display name, category, ordered
property schemas, allowed child categories. -/
structure ComponentDef where
  cname : String
  category : String
  properties : List (String × PropDef)
  allowed_children : List String
  deriving Repr, DecidableEq

/-- The static component library `JMX_COMPONENT_LIBRARY` (icons and
descriptions omitted: never read by the modelled operations). -/
def JMX_COMPONENT_LIBRARY : List (String × ComponentDef) :=
  [ ("test_plan",
     { cname := "Test Plan", category := "root",
       properties :=
         [ ("name", { ptype := "string", required := true }),
           ("comments", { ptype := "textarea" }),
           ("functional_mode", { ptype := "boolean" }),
           ("teardown_on_shutdown", { ptype := "boolean" }),
           ("serialize_threadgroups", { ptype := "boolean" }) ],
       allowed_children := ["thread_group", "config_element", "listener"] }),
    ("thread_group",
     { cname := "Thread Group", category := "threads",
       properties :=
         [ ("name", { ptype := "string", required := true }),
           ("num_threads", { ptype := "number", min := some 1, max := some 10000 }),
           ("ramp_time", { ptype := "number", min := some 0 }),
           ("loops", { ptype := "number", min := some (-1) }),
           ("continue_forever", { ptype := "boolean" }),
           ("on_sample_error", { ptype := "select" }),
           ("scheduler", { ptype := "boolean" }),
           ("duration", { ptype := "number", min := some 0 }),
           ("delay", { ptype := "number", min := some 0 }) ],
       allowed_children := ["sampler", "controller", "config_element", "listener", "timer", "assertion"] }),
    ("http_request",
     { cname := "HTTP Request", category := "sampler",
       properties :=
         [ ("name", { ptype := "string", required := true }),
           ("domain", { ptype := "string" }),
           ("port", { ptype := "number", min := some 1, max := some 65535 }),
           ("protocol", { ptype := "select" }),
           ("path", { ptype := "string" }),
           ("method", { ptype := "select" }),
           ("follow_redirects", { ptype := "boolean" }),
           ("auto_redirects", { ptype := "boolean" }),
           ("use_keepalive", { ptype := "boolean" }),
           ("body", { ptype := "textarea" }),
           ("content_encoding", { ptype := "string" }),
           ("connect_timeout", { ptype := "number", min := some 0 }),
           ("response_timeout", { ptype := "number", min := some 0 }) ],
       allowed_children := ["config_element", "assertion", "extractor"] }),
    ("transaction_controller",
     { cname := "Transaction Controller", category := "controller",
       properties :=
         [ ("name", { ptype := "string", required := true }),
           ("include_timers", { ptype := "boolean" }),
           ("generate_parent_sample", { ptype := "boolean" }) ],
       allowed_children := ["sampler", "controller", "config_element", "timer", "assertion"] }),
    ("header_manager",
     { cname := "HTTP Header Manager", category := "config_element",
       properties :=
         [ ("name", { ptype := "string", required := true }),
           ("headers", { ptype := "key_value_list" }) ],
       allowed_children := [] }),
    ("csv_data_config",
     { cname := "CSV Data Set Config", category := "config_element",
       properties :=
         [ ("name", { ptype := "string", required := true }),
           ("filename", { ptype := "string", required := true }),
           ("variable_names", { ptype := "string" }),
           ("delimiter", { ptype := "string" }),
           ("allow_quoted_data", { ptype := "boolean" }),
           ("recycle_on_eof", { ptype := "boolean" }),
           ("stop_thread_on_eof", { ptype := "boolean" }),
           ("sharing_mode", { ptype := "select" }) ],
       allowed_children := [] }),
    ("view_results_tree",
     { cname := "View Results Tree", category := "listener",
       properties :=
         [ ("name", { ptype := "string", required := true }),
           ("filename", { ptype := "string" }),
           ("error_logging", { ptype := "boolean" }),
           ("success_only_logging", { ptype := "boolean" }) ],
       allowed_children := [] }),
    ("summary_report",
     { cname := "Summary Report", category := "listener",
       properties :=
         [ ("name", { ptype := "string", required := true }),
           ("filename", { ptype := "string" }) ],
       allowed_children := [] }),
    ("response_assertion",
     { cname := "Response Assertion", category := "assertion",
       properties :=
         [ ("name", { ptype := "string", required := true }),
           ("test_field", { ptype := "select" }),
           ("pattern_matching", { ptype := "select" }),
           ("patterns", { ptype := "string_list" }),
           ("assume_success", { ptype := "boolean" }),
           ("not", { ptype := "boolean" }) ],
       allowed_children := [] }),
    ("constant_timer",
     { cname := "Constant Timer", category := "timer",
       properties :=
         [ ("name", { ptype := "string", required := true }),
           ("delay", { ptype := "number", min := some 0 }) ],
       allowed_children := [] }) ]

/-- The category a type tag resolves to in the library, if any. -/
def categoryOf (t : String) : Option String :=
  (dictGet JMX_COMPONENT_LIBRARY t).map (·.category)

/-- The result shape `{valid, errors, warnings}` returned by the validators. -/
structure ValidationResult where
  valid : Bool
  errors : List String
  warnings : List String
  deriving Repr, DecidableEq

/-- ASCII `str.lower()` over the character list (the only case the dialect
produces); kernel-reducible unlike `String.toLower`. -/
def strToLower (s : String) : String :=
  ⟨s.data.map Char.toLower⟩

/-- `s.startswith(p)` via the character lists. -/
def strStartsWith (s p : String) : Bool :=
  p.data.isPrefixOf s.data

/-- Join lines with a separator (kernel-reducible `String.intercalate`). -/
def strSepJoin (sep : String) : List String → String
  | [] => ""
  | [a] => a
  | a :: rest => a ++ sep ++ strSepJoin sep rest

/-- Join with newlines, the shape of the generator's multi-line templates. -/
def joinLines (l : List String) : String := strSepJoin "\n" l

/-- Python `value.startswith("http")` as used on `properties.get("path", "")`.
(A non-string value would raise in Python; that path is unreachable in every
claim below, and non-strings are treated as not matching.) -/
def startsWithHttp : JValue → Bool
  | .vStr s => strStartsWith s "http"
  | _ => false

/-- The per-property loop body of `validate_component`: the errors contributed
by one schema property `(pname, pdef)` for a given property bag. -/
def prop_errors (props : List (String × JValue)) (entry : String × PropDef) :
    List String :=
  let pname := entry.1
  let pdef := entry.2
  match dictGet props pname with
  | none => if pdef.required then ["Missing required property: " ++ pname] else []
  | some value =>
      (if pdef.ptype = "number" ∧ ¬ isNumInstance value then
         (if value ≠ .vStr "" then ["Property '" ++ pname ++ "' must be a number"] else [])
       else if pdef.ptype = "boolean" ∧ ¬ isBoolInstance value then
         ["Property '" ++ pname ++ "' must be a boolean"]
       else []) ++
      (if pdef.ptype = "number" ∧ isNumInstance value then
         (match pdef.min with
          | some lo =>
              if numVal value < lo then
                ["Property '" ++ pname ++ "' must be >= " ++ toString lo]
              else []
          | none => []) ++
         (match pdef.max with
          | some hi =>
              if numVal value > hi then
                ["Property '" ++ pname ++ "' must be <= " ++ toString hi]
              else []
          | none => [])
       else [])

/-- `validate_component` (`POST /api/jmx/validate-component`). -/
def validate_component (c : JMXComponent) : ValidationResult :=
  match dictGet JMX_COMPONENT_LIBRARY c.type with
  | none => { valid := false, errors := ["Unknown component type: " ++ c.type], warnings := [] }
  | some cdef =>
      let errors := cdef.properties.flatMap (prop_errors c.properties)
      let warnings :=
        if c.type = "http_request" ∧
           ¬ ((dictGet c.properties "domain").elim false pyTruthy) ∧
           ¬ startsWithHttp (dictGetD c.properties "path" (.vStr "")) then
          ["HTTP Request should have a domain or full URL in path"]
        else []
      { valid := errors.isEmpty, errors := errors, warnings := warnings }

/-- The hierarchy-check loop body of `validate_test_plan`: the errors
contributed by one `(comp_id, component)` entry.  A falsy parent (Python
`None` or `""`) contributes nothing. -/
def hierCheck (comps : List (String × JMXComponent)) (entry : String × JMXComponent) :
    List String :=
  let c := entry.2
  match c.parent with
  | none => []
  | some pid =>
      if pid = "" then []
      else
        match dictGet comps pid with
        | none => ["Component '" ++ c.name ++ "' has invalid parent reference"]
        | some par =>
            let allowed := ((dictGet JMX_COMPONENT_LIBRARY par.type).map (·.allowed_children)).getD []
            let cat := ((dictGet JMX_COMPONENT_LIBRARY c.type).map (·.category)).getD ""
            if allowed ≠ [] ∧ cat ∉ allowed then
              ["Component '" ++ c.name ++ "' cannot be a child of '" ++ par.name ++ "'"]
            else []

/-- `validate_test_plan` (`POST /api/jmx/validate-test-plan`): missing
thread-group check, then per-component validation (messages prefixed with the
component display name), then the hierarchy check. -/
def validate_test_plan (tp : JMXTestPlan) : ValidationResult :=
  let tgErr :=
    if ¬ tp.components.any (fun p => p.2.type = "thread_group") then
      ["Test plan must contain at least one Thread Group"]
    else []
  let compErrs := tp.components.flatMap (fun p =>
    ((validate_component p.2).errors).map
      (fun e => "Component '" ++ p.2.name ++ "': " ++ e))
  let compWarns := tp.components.flatMap (fun p =>
    ((validate_component p.2).warnings).map
      (fun w => "Component '" ++ p.2.name ++ "': " ++ w))
  let hierErrs := tp.components.flatMap (hierCheck tp.components)
  let errors := tgErr ++ compErrs ++ hierErrs
  { valid := errors.isEmpty, errors := errors, warnings := compWarns }

/-- One pass of Python `str.replace(pat, rep)` over a character list:
left-to-right, non-overlapping.  Fuel is the remaining input length. -/
def replChars (pat rep : List Char) : Nat → List Char → List Char
  | 0, _ => []
  | _ + 1, [] => []
  | fuel + 1, c :: rest =>
      if pat ≠ [] ∧ pat.isPrefixOf (c :: rest) then
        rep ++ replChars pat rep fuel ((c :: rest).drop pat.length)
      else c :: replChars pat rep fuel rest

/-- Python `s.replace(pat, rep)`. -/
def strReplace (s pat rep : String) : String :=
  ⟨replChars pat.data rep.data (s.data.length + 1) s.data⟩

/-- `xml.sax.saxutils.escape`: replace `&`, then `<`, then `>`. -/
def pyEscape (s : String) : String :=
  strReplace (strReplace (strReplace s "&" "&amp;") "<" "&lt;") ">" "&gt;"

/-- `xml.sax.saxutils.unescape`: replace `&lt;`, then `&gt;`, then `&amp;`. -/
def pyUnescape (s : String) : String :=
  strReplace (strReplace (strReplace s "&lt;" "<") "&gt;" ">") "&amp;" "&"

/-- The generator's local `escape_xml` applied to a property value:
`escape(str(text))`. -/
def escape_xml (v : JValue) : String := pyEscape (jStr v)

/-- `str(value).lower()` as used for boolean-rendered properties. -/
def strBoolLower (v : JValue) : String := strToLower (jStr v)

/-- Python `"  " * n`. -/
def strRepeat (s : String) : Nat → String
  | 0 => ""
  | n + 1 => s ++ strRepeat s n

/-- Concatenation of a list of strings (used on the specification side of the
wrapper-pairing theorem). -/
def strJoin : List String → String
  | [] => ""
  | s :: rest => s ++ strJoin rest

/-- The headers list of a `header_manager` property bag (iterating a
non-list value would raise in Python; modelled as the empty iteration). -/
def headerPairs : JValue → List (String × String)
  | .vPairs l => l
  | _ => []

/-- One `<elementProp>` block of the header-manager template. -/
def headerEntryXml (ind : String) (h : String × String) : String :=
  "\n" ++ joinLines
    [ ind ++ "    <elementProp name=\"" ++ pyEscape h.1 ++ "\" elementType=\"Header\">",
      ind ++ "      <stringProp name=\"Header.name\">" ++ pyEscape h.1 ++ "</stringProp>",
      ind ++ "      <stringProp name=\"Header.value\">" ++ pyEscape h.2 ++ "</stringProp>",
      ind ++ "    </elementProp>" ]

/-- `generate_component_xml`: the per-type element template of
`_generate_jmx_xml`.  Unsupported types render as a placeholder comment. -/
def generate_component_xml (c : JMXComponent) (lvl : Nat) : String :=
  let ind := strRepeat "  " lvl
  let props := c.properties
  let en := if c.enabled then "true" else "false"
  if c.type = "test_plan" then
    joinLines
      [ ind ++ "<TestPlan guiclass=\"TestPlanGui\" testclass=\"TestPlan\" testname=\""
            ++ escape_xml (dictGetD props "name" (.vStr "Test Plan")) ++ "\" enabled=\"" ++ en ++ "\">",
        ind ++ "  <stringProp name=\"TestPlan.comments\">"
            ++ escape_xml (dictGetD props "comments" (.vStr "")) ++ "</stringProp>",
        ind ++ "  <boolProp name=\"TestPlan.functional_mode\">"
            ++ strBoolLower (dictGetD props "functional_mode" (.vBool false)) ++ "</boolProp>",
        ind ++ "  <boolProp name=\"TestPlan.tearDown_on_shutdown\">"
            ++ strBoolLower (dictGetD props "teardown_on_shutdown" (.vBool true)) ++ "</boolProp>",
        ind ++ "  <elementProp name=\"TestPlan.user_defined_variables\" elementType=\"Arguments\">",
        ind ++ "    <collectionProp name=\"Arguments.arguments\"/>",
        ind ++ "  </elementProp>",
        ind ++ "  <stringProp name=\"TestPlan.serialize_threadgroups\">"
            ++ strBoolLower (dictGetD props "serialize_threadgroups" (.vBool false)) ++ "</stringProp>",
        ind ++ "</TestPlan>" ]
  else if c.type = "thread_group" then
    joinLines
      [ ind ++ "<ThreadGroup guiclass=\"ThreadGroupGui\" testclass=\"ThreadGroup\" testname=\""
            ++ escape_xml (dictGetD props "name" (.vStr "Thread Group")) ++ "\" enabled=\"" ++ en ++ "\">",
        ind ++ "  <stringProp name=\"ThreadGroup.on_sample_error\">"
            ++ escape_xml (dictGetD props "on_sample_error" (.vStr "continue")) ++ "</stringProp>",
        ind ++ "  <elementProp name=\"ThreadGroup.main_controller\" elementType=\"LoopController\">",
        ind ++ "    <boolProp name=\"LoopController.continue_forever\">"
            ++ strBoolLower (dictGetD props "continue_forever" (.vBool false)) ++ "</boolProp>",
        ind ++ "    <stringProp name=\"LoopController.loops\">"
            ++ escape_xml (dictGetD props "loops" (.vInt 1)) ++ "</stringProp>",
        ind ++ "  </elementProp>",
        ind ++ "  <stringProp name=\"ThreadGroup.num_threads\">"
            ++ escape_xml (dictGetD props "num_threads" (.vInt 1)) ++ "</stringProp>",
        ind ++ "  <stringProp name=\"ThreadGroup.ramp_time\">"
            ++ escape_xml (dictGetD props "ramp_time" (.vInt 1)) ++ "</stringProp>",
        ind ++ "  <boolProp name=\"ThreadGroup.scheduler\">"
            ++ strBoolLower (dictGetD props "scheduler" (.vBool false)) ++ "</boolProp>",
        ind ++ "  <stringProp name=\"ThreadGroup.duration\">"
            ++ escape_xml (dictGetD props "duration" (.vStr "")) ++ "</stringProp>",
        ind ++ "  <stringProp name=\"ThreadGroup.delay\">"
            ++ escape_xml (dictGetD props "delay" (.vStr "")) ++ "</stringProp>",
        ind ++ "</ThreadGroup>" ]
  else if c.type = "http_request" then
    let bodyXml :=
      if (dictGet props "body").elim false pyTruthy then
        "\n" ++ joinLines
          [ ind ++ "  <boolProp name=\"HTTPSampler.postBodyRaw\">true</boolProp>",
            ind ++ "  <elementProp name=\"HTTPsampler.Arguments\" elementType=\"Arguments\">",
            ind ++ "    <collectionProp name=\"Arguments.arguments\">",
            ind ++ "      <elementProp name=\"\" elementType=\"HTTPArgument\">",
            ind ++ "        <boolProp name=\"HTTPArgument.always_encode\">false</boolProp>",
            ind ++ "        <stringProp name=\"Argument.value\">"
                ++ escape_xml (dictGetD props "body" (.vStr "")) ++ "</stringProp>",
            ind ++ "        <stringProp name=\"Argument.metadata\">=</stringProp>",
            ind ++ "      </elementProp>",
            ind ++ "    </collectionProp>",
            ind ++ "  </elementProp>" ]
      else
        "\n" ++ joinLines
          [ ind ++ "  <elementProp name=\"HTTPsampler.Arguments\" elementType=\"Arguments\">",
            ind ++ "    <collectionProp name=\"Arguments.arguments\"/>",
            ind ++ "  </elementProp>" ]
    (ind ++ "<HTTPSamplerProxy guiclass=\"HttpTestSampleGui\" testclass=\"HTTPSamplerProxy\" testname=\""
         ++ escape_xml (dictGetD props "name" (.vStr "HTTP Request")) ++ "\" enabled=\"" ++ en ++ "\">")
      ++ "\n" ++ bodyXml ++ "\n" ++
    joinLines
      [ ind ++ "  <stringProp name=\"HTTPSampler.domain\">"
            ++ escape_xml (dictGetD props "domain" (.vStr "")) ++ "</stringProp>",
        ind ++ "  <stringProp name=\"HTTPSampler.port\">"
            ++ escape_xml (dictGetD props "port" (.vStr "")) ++ "</stringProp>",
        ind ++ "  <stringProp name=\"HTTPSampler.protocol\">"
            ++ escape_xml (dictGetD props "protocol" (.vStr "https")) ++ "</stringProp>",
        ind ++ "  <stringProp name=\"HTTPSampler.path\">"
            ++ escape_xml (dictGetD props "path" (.vStr "/")) ++ "</stringProp>",
        ind ++ "  <stringProp name=\"HTTPSampler.method\">"
            ++ escape_xml (dictGetD props "method" (.vStr "GET")) ++ "</stringProp>",
        ind ++ "  <boolProp name=\"HTTPSampler.follow_redirects\">"
            ++ strBoolLower (dictGetD props "follow_redirects" (.vBool true)) ++ "</boolProp>",
        ind ++ "  <boolProp name=\"HTTPSampler.auto_redirects\">"
            ++ strBoolLower (dictGetD props "auto_redirects" (.vBool false)) ++ "</boolProp>",
        ind ++ "  <boolProp name=\"HTTPSampler.use_keepalive\">"
            ++ strBoolLower (dictGetD props "use_keepalive" (.vBool true)) ++ "</boolProp>",
        ind ++ "  <boolProp name=\"HTTPSampler.DO_MULTIPART_POST\">false</boolProp>",
        ind ++ "  <stringProp name=\"HTTPSampler.embedded_url_re\"></stringProp>",
        ind ++ "  <stringProp name=\"HTTPSampler.connect_timeout\">"
            ++ escape_xml (dictGetD props "connect_timeout" (.vStr "")) ++ "</stringProp>",
        ind ++ "  <stringProp name=\"HTTPSampler.response_timeout\">"
            ++ escape_xml (dictGetD props "response_timeout" (.vStr "")) ++ "</stringProp>",
        ind ++ "</HTTPSamplerProxy>" ]
  else if c.type = "transaction_controller" then
    joinLines
      [ ind ++ "<TransactionController guiclass=\"TransactionControllerGui\" testclass=\"TransactionController\" testname=\""
            ++ escape_xml (dictGetD props "name" (.vStr "Transaction Controller")) ++ "\" enabled=\"" ++ en ++ "\">",
        ind ++ "  <boolProp name=\"TransactionController.includeTimers\">"
            ++ strBoolLower (dictGetD props "include_timers" (.vBool true)) ++ "</boolProp>",
        ind ++ "  <boolProp name=\"TransactionController.generateParentSample\">"
            ++ strBoolLower (dictGetD props "generate_parent_sample" (.vBool false)) ++ "</boolProp>",
        ind ++ "</TransactionController>" ]
  else if c.type = "header_manager" then
    let headersXml :=
      strJoin (((dictGetD props "headers" (.vPairs [])) |> headerPairs).map (headerEntryXml ind))
    joinLines
      [ ind ++ "<HeaderManager guiclass=\"HeaderPanel\" testclass=\"HeaderManager\" testname=\""
            ++ escape_xml (dictGetD props "name" (.vStr "HTTP Header Manager")) ++ "\" enabled=\"" ++ en ++ "\">",
        ind ++ "  <collectionProp name=\"HeaderManager.headers\">" ++ headersXml,
        ind ++ "  </collectionProp>",
        ind ++ "</HeaderManager>" ]
  else if c.type = "view_results_tree" then
    joinLines
      [ ind ++ "<ResultCollector guiclass=\"ViewResultsFullVisualizer\" testclass=\"ResultCollector\" testname=\""
            ++ escape_xml (dictGetD props "name" (.vStr "View Results Tree")) ++ "\" enabled=\"" ++ en ++ "\">",
        ind ++ "  <boolProp name=\"ResultCollector.error_logging\">"
            ++ strBoolLower (dictGetD props "error_logging" (.vBool false)) ++ "</boolProp>",
        ind ++ "  <objProp>",
        ind ++ "    <name>saveConfig</name>",
        ind ++ "    <value class=\"SampleSaveConfiguration\">",
        ind ++ "      <time>true</time>",
        ind ++ "      <latency>true</latency>",
        ind ++ "      <timestamp>true</timestamp>",
        ind ++ "      <success>true</success>",
        ind ++ "      <label>true</label>",
        ind ++ "      <code>true</code>",
        ind ++ "      <message>true</message>",
        ind ++ "      <threadName>true</threadName>",
        ind ++ "      <dataType>true</dataType>",
        ind ++ "      <encoding>false</encoding>",
        ind ++ "      <assertions>true</assertions>",
        ind ++ "      <subresults>true</subresults>",
        ind ++ "      <responseData>false</responseData>",
        ind ++ "      <samplerData>false</samplerData>",
        ind ++ "      <xml>false</xml>",
        ind ++ "      <fieldNames>true</fieldNames>",
        ind ++ "      <responseHeaders>false</responseHeaders>",
        ind ++ "      <requestHeaders>false</requestHeaders>",
        ind ++ "      <responseDataOnError>false</responseDataOnError>",
        ind ++ "      <saveAssertionResultsFailureMessage>true</saveAssertionResultsFailureMessage>",
        ind ++ "      <assertionsResultsToSave>0</assertionsResultsToSave>",
        ind ++ "      <bytes>true</bytes>",
        ind ++ "      <sentBytes>true</sentBytes>",
        ind ++ "      <url>true</url>",
        ind ++ "      <threadCounts>true</threadCounts>",
        ind ++ "      <idleTime>true</idleTime>",
        ind ++ "      <connectTime>true</connectTime>",
        ind ++ "    </value>",
        ind ++ "  </objProp>",
        ind ++ "  <stringProp name=\"filename\">"
            ++ escape_xml (dictGetD props "filename" (.vStr "")) ++ "</stringProp>",
        ind ++ "</ResultCollector>" ]
  else
    ind ++ "<!-- Unsupported component type: " ++ c.type ++ " -->"

/-- The children wrapper emitted after a component element: a paired
`<hashTree>` block when the children list is non-empty, a self-closing
`<hashTree/>` otherwise.  `recChild` renders the children list. -/
def hashTreeWrapper (lvl : Nat) (recChild : List String → String)
    (c : JMXComponent) : String :=
  let ind := strRepeat "  " lvl
  if c.children ≠ [] then
    ind ++ "<hashTree>\n" ++ recChild c.children ++ ind ++ "</hashTree>\n"
  else
    ind ++ "<hashTree/>\n"

/-- The `for comp_id in root_ids` loop of `build_hierarchy`: ids missing from
the component map are skipped (`continue`). -/
def bhGo (dict : List (String × JMXComponent)) (lvl : Nat)
    (recChild : List String → String) : List String → String
  | [] => ""
  | id :: rest =>
      (match dictGet dict id with
       | none => ""
       | some c => generate_component_xml c lvl ++ "\n" ++ hashTreeWrapper lvl recChild c)
      ++ bhGo dict lvl recChild rest

/-- `build_hierarchy`: depth-first rendering of a component list.  Fuel
bounds the recursion depth (Python's recursion is bounded only by the
interpreter stack; entry points supply fuel larger than any acyclic plan's
depth). -/
def build_hierarchy : Nat → List (String × JMXComponent) → List String → Nat → String
  | 0, _, _, _ => ""
  | fuel + 1, dict, ids, lvl =>
      bhGo dict lvl (fun cids => build_hierarchy fuel dict cids (lvl + 1)) ids

/-- Specification-side rendering of a single component: its element followed
by exactly one children wrapper holding the full markup of each child in
children-list order.  This is the per-component shape the wrapper-pairing
claim describes; the wrapper-pairing theorem proves `build_hierarchy`
produces exactly the concatenation of these. -/
def componentMarkup : Nat → List (String × JMXComponent) → String → Nat → String
  | 0, _, _, _ => ""
  | fuel + 1, dict, id, lvl =>
      match dictGet dict id with
      | none => ""
      | some c =>
          generate_component_xml c lvl ++ "\n" ++
          hashTreeWrapper lvl
            (fun cids => strJoin (cids.map (fun i => componentMarkup fuel dict i (lvl + 1)))) c

/-- `_generate_jmx_xml`: XML declaration, document root, rendered hierarchy,
closing root. -/
def _generate_jmx_xml (tp : JMXTestPlan) : String :=
  let fuel := tp.components.length + 1
  "<?xml version=\"1.0\" encoding=\"UTF-8\"?>\n"
    ++ "<jmeterTestPlan version=\"1.2\" properties=\"5.0\" jmeter=\"5.6.3\">\n  <hashTree>\n"
    ++ build_hierarchy fuel tp.components tp.root_components 2
    ++ "  </hashTree>\n</jmeterTestPlan>"

/-- The observable outcome of `generate_jmx` (`POST /api/jmx/generate`):
either the validation error list (HTTP 400 with `details`) or generated XML
text (written to a file and offered for download; the file system side is
outside the model). -/
inductive GenResult where
  | validationFailed (details : List String)
  | success (xml : String)
  deriving Repr, DecidableEq

/-- `generate_jmx`: validate first; only a plan that validates is rendered. -/
def generate_jmx (tp : JMXTestPlan) : GenResult :=
  let v := validate_test_plan tp
  if v.valid then .success (_generate_jmx_xml tp) else .validationFailed v.errors

/-- An XML element as `xml.etree.ElementTree` exposes it to the parser code:
tag, attributes, the text before the first child, and the child elements.
Tail text after a child is never consulted by any parsing function and is
not retained. -/
inductive XML where
  | elem (tag : String) (attrs : List (String × String)) (text : String) (children : List XML)
  deriving Repr

def xmlTag : XML → String
  | .elem t _ _ _ => t

def xmlAttrs : XML → List (String × String)
  | .elem _ a _ _ => a

def xmlText : XML → String
  | .elem _ _ t _ => t

def xmlChildren : XML → List XML
  | .elem _ _ _ c => c

/-- `elem.get(name, default)` on the attribute dict. -/
def attrGetD (x : XML) (name default : String) : String :=
  (dictGet (xmlAttrs x) name).getD default

/-- XML whitespace. -/
def isXmlWs (c : Char) : Bool :=
  c = ' ' ∨ c = '\t' ∨ c = '\n' ∨ c = '\r'

/-- Decode one standard entity reference after a `&`; anything else is a
well-formedness error, as in `ElementTree` (numeric character references are
not modelled: none occurs in the dialect or claims). -/
def matchEntity : List Char → Option (Char × List Char)
  | cs =>
      if ['a','m','p',';'].isPrefixOf cs then some ('&', cs.drop 4)
      else if ['l','t',';'].isPrefixOf cs then some ('<', cs.drop 3)
      else if ['g','t',';'].isPrefixOf cs then some ('>', cs.drop 3)
      else if ['q','u','o','t',';'].isPrefixOf cs then some ('"', cs.drop 5)
      else if ['a','p','o','s',';'].isPrefixOf cs then some ('\'', cs.drop 5)
      else none

/-- Scan character data up to the next `<` (or end of input), decoding
entity references. -/
def scanText : Nat → List Char → Option (List Char × List Char)
  | 0, _ => none
  | _ + 1, [] => some ([], [])
  | fuel + 1, c :: rest =>
      if c = '<' then some ([], c :: rest)
      else if c = '&' then
        match matchEntity rest with
        | some (d, rest') => (scanText fuel rest').map (fun p => (d :: p.1, p.2))
        | none => none
      else (scanText fuel rest).map (fun p => (c :: p.1, p.2))

/-- A character allowed in an element or attribute name. -/
def isNameChar (c : Char) : Bool :=
  c.isAlphanum ∨ c = '_' ∨ c = '.' ∨ c = '-' ∨ c = ':'

/-- Scan a quoted attribute value up to the closing quote, decoding
entities. -/
def scanAttrValue (q : Char) : Nat → List Char → Option (List Char × List Char)
  | 0, _ => none
  | _ + 1, [] => none
  | fuel + 1, c :: rest =>
      if c = q then some ([], rest)
      else if c = '&' then
        match matchEntity rest with
        | some (d, rest') => (scanAttrValue q fuel rest').map (fun p => (d :: p.1, p.2))
        | none => none
      else (scanAttrValue q fuel rest).map (fun p => (c :: p.1, p.2))

/-- Scan the attribute list of an open tag, stopping before `>` or `/`. -/
def scanAttrs : Nat → List Char → Option (List (String × String) × List Char)
  | 0, _ => none
  | _ + 1, [] => none
  | fuel + 1, cs =>
      let cs := cs.dropWhile isXmlWs
      match cs with
      | [] => none
      | c :: rest =>
          if c = '>' ∨ c = '/' then some ([], cs)
          else
            let nm := (c :: rest).takeWhile isNameChar
            let cs1 := (c :: rest).dropWhile isNameChar
            if nm = [] then none
            else
              match cs1.dropWhile isXmlWs with
              | '=' :: cs2 =>
                  match cs2.dropWhile isXmlWs with
                  | q :: cs3 =>
                      if q = '"' ∨ q = '\'' then
                        match scanAttrValue q fuel cs3 with
                        | some (v, cs4) =>
                            (scanAttrs fuel cs4).map
                              (fun p => ((⟨nm⟩, (⟨v⟩ : String)) :: p.1, p.2))
                        | none => none
                      else none
                  | [] => none
              | _ => none

/-- Drop characters up to and including the terminator sequence (used for
comments and processing instructions). -/
def dropThrough (term : List Char) : Nat → List Char → Option (List Char)
  | 0, _ => none
  | _ + 1, [] => none
  | fuel + 1, c :: rest =>
      if term.isPrefixOf (c :: rest) then some ((c :: rest).drop term.length)
      else dropThrough term fuel rest

/-- Parse a sequence of sibling nodes: leading character data, then child
elements (comments and processing instructions skipped, tail text after a
child discarded), stopping at end of input or at a closing tag.  Returns
(text before first child, children, unconsumed input starting at the closing
tag if any). -/
def parseItems : Nat → List Char → Option (String × List XML × List Char)
  | 0, _ => none
  | fuel + 1, cs =>
      match scanText (fuel + 1) cs with
      | none => none
      | some (txt, rest) =>
          match rest with
          | [] => some (⟨txt⟩, [], [])
          | '<' :: '/' :: _ => some (⟨txt⟩, [], rest)
          | '<' :: '!' :: '-' :: '-' :: r =>
              match dropThrough ['-','-','>'] fuel r with
              | none => none
              | some r' =>
                  match parseItems fuel r' with
                  | none => none
                  | some (t2, ch2, r2) => some (String.append ⟨txt⟩ t2, ch2, r2)
          | '<' :: '?' :: r =>
              match dropThrough ['?','>'] fuel r with
              | none => none
              | some r' =>
                  match parseItems fuel r' with
                  | none => none
                  | some (t2, ch2, r2) => some (String.append ⟨txt⟩ t2, ch2, r2)
          | '<' :: r =>
              let nm := r.takeWhile isNameChar
              let r1 := r.dropWhile isNameChar
              if nm = [] then none
              else
                match scanAttrs fuel r1 with
                | none => none
                | some (attrs, r2) =>
                    match r2 with
                    | '/' :: '>' :: r3 =>
                        match parseItems fuel r3 with
                        | none => none
                        | some (_, more, r4) =>
                            some (⟨txt⟩, XML.elem ⟨nm⟩ attrs "" [] :: more, r4)
                    | '>' :: r3 =>
                        match parseItems fuel r3 with
                        | none => none
                        | some (innerT, innerC, r4) =>
                            match r4 with
                            | '<' :: '/' :: r5 =>
                                let nm2 := r5.takeWhile isNameChar
                                let r6 := (r5.dropWhile isNameChar).dropWhile isXmlWs
                                if nm2 = nm then
                                  match r6 with
                                  | '>' :: r7 =>
                                      match parseItems fuel r7 with
                                      | none => none
                                      | some (_, more, r8) =>
                                          some (⟨txt⟩, XML.elem ⟨nm⟩ attrs innerT innerC :: more, r8)
                                  | _ => none
                                else none
                            | _ => none
                    | _ => none
          | _ => none

/-- `ET.fromstring`: a whole document must contain exactly one root element;
a failure anywhere is the fatal `ParseError` case. -/
def ET_fromstring (s : String) : Option XML :=
  match parseItems 1000000 s.data with
  | some (_, [root], []) => some root
  | _ => none

/-- `elem.find(tag)`: first direct child with the given tag. -/
def findChild (x : XML) (tag : String) : Option XML :=
  (xmlChildren x).find? (fun c => xmlTag c = tag)

/-- Document-order search of the descendants of a node list for
`.//tag[@attr="val"]` (the element itself excluded, as in ElementTree). -/
def findDescL (tag attr val : String) : Nat → List XML → Option XML
  | 0, _ => none
  | _ + 1, [] => none
  | fuel + 1, x :: rest =>
      if xmlTag x = tag ∧ dictGet (xmlAttrs x) attr = some val then some x
      else
        match findDescL tag attr val fuel (xmlChildren x) with
        | some r => some r
        | none => findDescL tag attr val fuel rest

/-- `elem.find('.//tag[@attr="val"]')`. -/
def findDesc (fuel : Nat) (x : XML) (tag attr val : String) : Option XML :=
  findDescL tag attr val fuel (xmlChildren x)

/-- `get_string_prop`: text of the first descendant
`stringProp[@name=prop]`, unescaped, falling back to the default when the
element is absent or its text empty (`None` in Python). -/
def get_string_prop (fuel : Nat) (x : XML) (prop default : String) : String :=
  match findDesc fuel x "stringProp" "name" prop with
  | some p => if xmlText p ≠ "" then pyUnescape (xmlText p) else default
  | none => default

/-- `get_bool_prop`: text of the first descendant `boolProp[@name=prop]`,
lowercased and compared with `"true"`. -/
def get_bool_prop (fuel : Nat) (x : XML) (prop : String) (default : Bool) : Bool :=
  match findDesc fuel x "boolProp" "name" prop with
  | some p => if xmlText p ≠ "" then strToLower (xmlText p) = "true" else default
  | none => default

/-- ASCII-digit run with Python's underscore-grouping rule (`1_000`): an
underscore must sit between two digits.  The accumulator carries the value
so far. -/
def pyDigitsGo : List Char → Nat → Option Nat
  | [], acc => some acc
  | c :: '_' :: d :: rest, acc =>
      if c.isDigit ∧ d.isDigit then
        pyDigitsGo (d :: rest) (acc * 10 + (c.toNat - '0'.toNat))
      else none
  | [_, '_'], _ => none
  | c :: rest, acc =>
      if c.isDigit then pyDigitsGo rest (acc * 10 + (c.toNat - '0'.toNat))
      else none

/-- A non-empty ASCII digit run (with grouping underscores) as a `Nat`. -/
def pyDigits (cs : List Char) : Option Nat :=
  if cs = [] then none else pyDigitsGo cs 0

/-- Python `str.strip()` restricted to ASCII whitespace. -/
def pyStrip (s : String) : String :=
  ⟨((s.data.dropWhile isXmlWs).reverse.dropWhile isXmlWs).reverse⟩

/-- Python `int(s)` on ASCII input: strip, optional sign, digit run.  (A
valid call never raises; `none` is the `ValueError` case.) -/
def pyInt (s : String) : Option Int :=
  match (pyStrip s).data with
  | '+' :: r => (pyDigits r).map Int.ofNat
  | '-' :: r => (pyDigits r).map (fun n => -(n : Int))
  | cs => (pyDigits cs).map Int.ofNat

/-- Python `sub in s` substring test. -/
def strContainsAux (sub : List Char) : Nat → List Char → Bool
  | 0, _ => false
  | fuel + 1, cs =>
      if sub.isPrefixOf cs then true
      else
        match cs with
        | [] => false
        | _ :: rest => strContainsAux sub fuel rest

/-- Python `sub in s`. -/
def strContains (s sub : String) : Bool :=
  strContainsAux sub.data (s.data.length + 1) s.data

/-- `parse_test_plan_element`. -/
def parse_test_plan_element (fuel : Nat) (id : String) (elem : XML) : JMXComponent :=
  let nm := attrGetD elem "testname" "Test Plan"
  { id := id, type := "test_plan", name := nm,
    enabled := strToLower (attrGetD elem "enabled" "true") = "true",
    properties :=
      [ ("name", .vStr nm),
        ("comments", .vStr (get_string_prop fuel elem "TestPlan.comments" "")),
        ("functional_mode", .vBool (get_bool_prop fuel elem "TestPlan.functional_mode" false)),
        ("teardown_on_shutdown", .vBool (get_bool_prop fuel elem "TestPlan.tearDown_on_shutdown" true)),
        ("serialize_threadgroups", .vBool (get_bool_prop fuel elem "TestPlan.serialize_threadgroups" false)) ],
    children := [], parent := none }

/-- `parse_thread_group_element`: numeric fields fall back to their schema
defaults when the source text does not parse as an integer. -/
def parse_thread_group_element (fuel : Nat) (id : String) (elem : XML) : JMXComponent :=
  let lc := findDesc fuel elem "elementProp" "elementType" "LoopController"
  let loops :=
    match lc with
    | some l => get_string_prop fuel l "LoopController.loops" "1"
    | none => "1"
  let continue_forever :=
    match lc with
    | some l => get_bool_prop fuel l "LoopController.continue_forever" false
    | none => false
  let num_threads := (pyInt (get_string_prop fuel elem "ThreadGroup.num_threads" "1")).getD 1
  let ramp_time := (pyInt (get_string_prop fuel elem "ThreadGroup.ramp_time" "1")).getD 1
  let loops_int := if loops ≠ "" then (pyInt loops).getD 1 else 1
  let nm := attrGetD elem "testname" "Thread Group"
  { id := id, type := "thread_group", name := nm,
    enabled := strToLower (attrGetD elem "enabled" "true") = "true",
    properties :=
      [ ("name", .vStr nm),
        ("num_threads", .vInt num_threads),
        ("ramp_time", .vInt ramp_time),
        ("loops", .vInt loops_int),
        ("continue_forever", .vBool continue_forever),
        ("on_sample_error", .vStr (get_string_prop fuel elem "ThreadGroup.on_sample_error" "continue")),
        ("scheduler", .vBool (get_bool_prop fuel elem "ThreadGroup.scheduler" false)),
        ("duration", .vStr (get_string_prop fuel elem "ThreadGroup.duration" "")),
        ("delay", .vStr (get_string_prop fuel elem "ThreadGroup.delay" "")) ],
    children := [], parent := none }

/-- The first `.//elementProp[@elementType="HTTPArgument"]` descendant that
has a direct `stringProp[@name="Argument.value"]` child (the shape the
generator's raw-body convention emits). -/
def findBodyArg : Nat → List XML → Option XML
  | 0, _ => none
  | _ + 1, [] => none
  | fuel + 1, x :: rest =>
      let here :=
        if xmlTag x = "elementProp" ∧ dictGet (xmlAttrs x) "elementType" = some "HTTPArgument" then
          (xmlChildren x).find?
            (fun c => xmlTag c = "stringProp" ∧ dictGet (xmlAttrs c) "name" = some "Argument.value")
        else none
      match here with
      | some r => some r
      | none =>
          match findBodyArg fuel (xmlChildren x) with
          | some r => some r
          | none => findBodyArg fuel rest

/-- `extract_http_body`: only read a body when the raw-body flag is set. -/
def extract_http_body (fuel : Nat) (elem : XML) : String :=
  if get_bool_prop fuel elem "HTTPSampler.postBodyRaw" false then
    match findBodyArg fuel (xmlChildren elem) with
    | some arg => if xmlText arg ≠ "" then pyUnescape (xmlText arg) else ""
    | none => ""
  else ""

/-- `parse_http_sampler_element`: the port string is kept as a number only
when it parses and lies in 1..65535, else the empty string. -/
def parse_http_sampler_element (fuel : Nat) (id : String) (elem : XML) : JMXComponent :=
  let port_str := get_string_prop fuel elem "HTTPSampler.port" ""
  let port_value : JValue :=
    if port_str ≠ "" ∧ pyStrip port_str ≠ "" then
      match pyInt port_str with
      | some n => if 1 ≤ n ∧ n ≤ 65535 then .vInt n else .vStr ""
      | none => .vStr ""
    else .vStr ""
  let nm := attrGetD elem "testname" "HTTP Request"
  { id := id, type := "http_request", name := nm,
    enabled := strToLower (attrGetD elem "enabled" "true") = "true",
    properties :=
      [ ("name", .vStr nm),
        ("domain", .vStr (get_string_prop fuel elem "HTTPSampler.domain" "")),
        ("port", port_value),
        ("protocol", .vStr (get_string_prop fuel elem "HTTPSampler.protocol" "https")),
        ("path", .vStr (get_string_prop fuel elem "HTTPSampler.path" "/")),
        ("method", .vStr (get_string_prop fuel elem "HTTPSampler.method" "GET")),
        ("follow_redirects", .vBool (get_bool_prop fuel elem "HTTPSampler.follow_redirects" true)),
        ("auto_redirects", .vBool (get_bool_prop fuel elem "HTTPSampler.auto_redirects" false)),
        ("use_keepalive", .vBool (get_bool_prop fuel elem "HTTPSampler.use_keepalive" true)),
        ("body", .vStr (extract_http_body fuel elem)),
        ("content_encoding", .vStr (get_string_prop fuel elem "HTTPSampler.contentEncoding" "")),
        ("connect_timeout", .vStr (get_string_prop fuel elem "HTTPSampler.connect_timeout" "")),
        ("response_timeout", .vStr (get_string_prop fuel elem "HTTPSampler.response_timeout" "")) ],
    children := [], parent := none }

/-- `parse_transaction_controller_element`. -/
def parse_transaction_controller_element (fuel : Nat) (id : String) (elem : XML) : JMXComponent :=
  let nm := attrGetD elem "testname" "Transaction Controller"
  { id := id, type := "transaction_controller", name := nm,
    enabled := strToLower (attrGetD elem "enabled" "true") = "true",
    properties :=
      [ ("name", .vStr nm),
        ("include_timers", .vBool (get_bool_prop fuel elem "TransactionController.includeTimers" true)),
        ("generate_parent_sample", .vBool (get_bool_prop fuel elem "TransactionController.generateParentSample" false)) ],
    children := [], parent := none }

/-- `parse_header_manager_element`: one (key, value) pair per `elementProp`
child of the headers collection whose key is non-empty. -/
def parse_header_manager_element (fuel : Nat) (id : String) (elem : XML) : JMXComponent :=
  let headers :=
    match findDesc fuel elem "collectionProp" "name" "HeaderManager.headers" with
    | some coll =>
        ((xmlChildren coll).filter (fun h => xmlTag h = "elementProp")).filterMap
          (fun h =>
            let key := get_string_prop fuel h "Header.name" ""
            let value := get_string_prop fuel h "Header.value" ""
            if key ≠ "" then some (key, value) else none)
    | none => []
  let nm := attrGetD elem "testname" "HTTP Header Manager"
  { id := id, type := "header_manager", name := nm,
    enabled := strToLower (attrGetD elem "enabled" "true") = "true",
    properties := [ ("name", .vStr nm), ("headers", .vPairs headers) ],
    children := [], parent := none }

/-- `parse_result_collector_element`: the listener flavour is recovered from
the `guiclass` attribute, defaulting to the tree view. -/
def parse_result_collector_element (fuel : Nat) (id : String) (elem : XML) : JMXComponent :=
  let gui := attrGetD elem "guiclass" ""
  let ctype :=
    if strContains gui "ViewResultsFullVisualizer" then "view_results_tree"
    else if strContains gui "SummaryReport" then "summary_report"
    else "view_results_tree"
  let nm :=
    if strContains gui "ViewResultsFullVisualizer" then attrGetD elem "testname" "View Results Tree"
    else if strContains gui "SummaryReport" then attrGetD elem "testname" "Summary Report"
    else attrGetD elem "testname" "Listener"
  { id := id, type := ctype, name := nm,
    enabled := strToLower (attrGetD elem "enabled" "true") = "true",
    properties :=
      [ ("name", .vStr nm),
        ("filename", .vStr (get_string_prop fuel elem "filename" "")),
        ("error_logging", .vBool (get_bool_prop fuel elem "ResultCollector.error_logging" false)),
        ("success_only_logging", .vBool (get_bool_prop fuel elem "ResultCollector.success_only_logging" false)) ],
    children := [], parent := none }

/-- `parse_component_element`: dispatch on the `testclass` attribute; an
unrecognized class degrades to a generic `"unknown"` component.  (The Python
`except` fallback is unreachable here: no modelled branch raises.) -/
def parse_component_element (fuel : Nat) (id : String) (elem : XML) : JMXComponent :=
  let testclass := attrGetD elem "testclass" ""
  if testclass = "TestPlan" then parse_test_plan_element fuel id elem
  else if testclass = "ThreadGroup" then parse_thread_group_element fuel id elem
  else if testclass = "HTTPSamplerProxy" then parse_http_sampler_element fuel id elem
  else if testclass = "TransactionController" then parse_transaction_controller_element fuel id elem
  else if testclass = "HeaderManager" then parse_header_manager_element fuel id elem
  else if testclass = "ResultCollector" then parse_result_collector_element fuel id elem
  else if testclass ∈ ["ConstantTimer", "UniformRandomTimer", "GaussianRandomTimer"] then
    let delay_str := get_string_prop fuel elem "ConstantTimer.delay" "1000"
    let delay_value := if delay_str ≠ "" then (pyInt delay_str).getD 1000 else 1000
    let nm := attrGetD elem "testname" "Timer"
    { id := id, type := "constant_timer", name := nm,
      enabled := strToLower (attrGetD elem "enabled" "true") = "true",
      properties := [ ("name", .vStr nm), ("delay", .vInt delay_value) ],
      children := [], parent := none }
  else if testclass ∈ ["ResponseAssertion", "JSONPathAssertion", "XPathAssertion"] then
    let nm := attrGetD elem "testname" "Assertion"
    { id := id, type := "response_assertion", name := nm,
      enabled := strToLower (attrGetD elem "enabled" "true") = "true",
      properties :=
        [ ("name", .vStr nm),
          ("test_field", .vStr (get_string_prop fuel elem "Assertion.test_field" "Assertion.response_data")),
          ("pattern_matching", .vStr (get_string_prop fuel elem "Assertion.assume_success" "Assertion.TEST_FIELD_CONTAINS")),
          ("patterns", .vPairs []),
          ("assume_success", .vBool (get_bool_prop fuel elem "Assertion.assume_success" false)),
          ("not", .vBool (get_bool_prop fuel elem "Assertion.negate" false)) ],
      children := [], parent := none }
  else
    let nm := attrGetD elem "testname" ("Unknown (" ++ testclass ++ ")")
    { id := id, type := "unknown", name := nm,
      enabled := strToLower (attrGetD elem "enabled" "true") = "true",
      properties := [ ("name", .vStr nm) ],
      children := [], parent := none }

/-- The digit successor used by the little-endian decimal counter. -/
def succDig : Char → Char
  | '0' => '1' | '1' => '2' | '2' => '3' | '3' => '4' | '4' => '5'
  | '5' => '6' | '6' => '7' | '7' => '8' | '8' => '9' | _ => '0'

/-- Increment a little-endian decimal digit string. -/
def incDigitsLE : List Char → List Char
  | [] => ['1']
  | c :: rest => if c = '9' then '0' :: incDigitsLE rest else succDig c :: rest

/-- The little-endian decimal digits of a counter value. -/
def natDigitsLE : Nat → List Char
  | 0 => ['0']
  | n + 1 => incDigitsLE (natDigitsLE n)

/-- Decimal rendering of a counter value (e.g. `natStr 12 = "12"`). -/
def natStr (n : Nat) : String := ⟨(natDigitsLE n).reverse⟩

/-- The id the modelled `generateId` produces for counter value `j`.  The
Python generator draws a random 12-hex-character UUID fragment; only the
freshness of each id matters to the code, so the model renders the counter
instead. -/
def cidOf (j : Nat) : String := "comp_" ++ natStr j

/-- Append a freshly created child id to the children list of the component
stored under `pid` (the in-place list mutation of the Python dict value). -/
def appendChild : List (String × JMXComponent) → String → String → List (String × JMXComponent)
  | [], _, _ => []
  | (k, c) :: rest, pid, cid =>
      if k = pid then (k, { c with children := c.children ++ [cid] }) :: rest
      else (k, c) :: appendChild rest pid cid

/-- Store a freshly parsed component and link it: into its (truthy,
resolving) parent's children list, or else — when it has no parent — onto
the plan's root list, updating the plan display name for a test-plan
component.  This is the loop body of `parse_hash_tree` after component
extraction. -/
def attachComponent (cid : String) (parent : Option String) (comp : JMXComponent)
    (tp : JMXTestPlan) : JMXTestPlan :=
  let tp1 := { tp with components := dictSet tp.components cid comp }
  match parent with
  | some pid =>
      if pid ≠ "" ∧ (dictGet tp1.components pid).isSome then
        { tp1 with components := appendChild tp1.components pid cid }
      else tp1
  | none =>
      let tpr := { tp1 with root_components := tp1.root_components ++ [cid] }
      if comp.type = "test_plan" then { tpr with name := comp.name } else tpr

/-- The sibling walk of `parse_hash_tree`: `cur` is the most recently parsed
component at this level, `parent` the enclosing component id.  A `hashTree`
sibling is recursed into with `cur` as the new parent (and skipped entirely
when no component precedes it); any other element becomes a component with a
fresh counter-generated id, attached to its parent's children list or to the
plan's root list. -/
def parseLoop : Nat → List XML → Option String → Option String → Nat → JMXTestPlan → Nat × JMXTestPlan
  | 0, _, _, _, n, tp => (n, tp)
  | _ + 1, [], _, _, n, tp => (n, tp)
  | fuel + 1, child :: rest, cur, parent, n, tp =>
      if xmlTag child = "hashTree" then
        match cur with
        | some cid =>
            let st := parseLoop fuel (xmlChildren child) none (some cid) n tp
            parseLoop fuel rest cur parent st.1 st.2
        | none => parseLoop fuel rest cur parent n tp
      else
        let cid := cidOf n
        let comp0 := parse_component_element fuel cid child
        let comp := { comp0 with parent := parent }
        parseLoop fuel rest (some cid) parent (n + 1) (attachComponent cid parent comp tp)

/-- `parse_hash_tree` on a wrapper element. -/
def parse_hash_tree (fuel : Nat) (elem : XML) (parent : Option String)
    (n : Nat) (tp : JMXTestPlan) : Nat × JMXTestPlan :=
  parseLoop fuel (xmlChildren elem) none parent n tp

/-- `parse_jmx_xml`: fatal parse errors surface as `none`; a document whose
root has no `hashTree` child yields the empty imported plan.  The plan id is
the first counter-generated id, components are numbered from 1. -/
def parse_jmx_xml (s : String) : Option JMXTestPlan :=
  match ET_fromstring s with
  | none => none
  | some root =>
      let tp0 : JMXTestPlan :=
        { id := cidOf 0, name := "Imported Test Plan", components := [], root_components := [] }
      match findChild root "hashTree" with
      | none => some tp0
      | some ht => some (parse_hash_tree 1000000 ht none 1 tp0).2

/-- The built test-plan root for the round-trip check: a test plan whose one
child is a thread group. -/
def c1_tp : JMXComponent :=
  { id := "tp", type := "test_plan", name := "My Plan",
    properties := [("name", .vStr "My Plan")], children := ["tg"], parent := none }

/-- The built thread group (5 users, 10 s ramp) for the round-trip check. -/
def c1_tg : JMXComponent :=
  { id := "tg", type := "thread_group", name := "TG",
    properties := [("name", .vStr "TG"), ("num_threads", .vInt 5), ("ramp_time", .vInt 10)],
    children := ["hr"], parent := some "tp" }

/-- The built HTTP GET sampler (`example.com`, `/health`). -/
def c1_hr : JMXComponent :=
  { id := "hr", type := "http_request", name := "Health",
    properties := [("name", .vStr "Health"), ("domain", .vStr "example.com"),
                   ("path", .vStr "/health"), ("method", .vStr "GET")],
    children := [], parent := some "tg" }

/-- The built plan: one root (test plan), one thread-group child, one
sampler grandchild. -/
def c1_plan : JMXTestPlan :=
  { id := "plan1", name := "My Plan",
    components := [("tp", c1_tp), ("tg", c1_tg), ("hr", c1_hr)],
    root_components := ["tp"] }

/-- The plan the parser reconstructs from the generated text of `c1_plan`:
identical shape, schema-defaulted property bags, fresh counter ids. -/
def c1_parsed : JMXTestPlan :=
  { id := "comp_0", name := "My Plan",
    components :=
      [ ("comp_1",
         { id := "comp_1", type := "test_plan", name := "My Plan", enabled := true,
           properties :=
             [ ("name", .vStr "My Plan"), ("comments", .vStr ""),
               ("functional_mode", .vBool false), ("teardown_on_shutdown", .vBool true),
               ("serialize_threadgroups", .vBool false) ],
           children := ["comp_2"], parent := none }),
        ("comp_2",
         { id := "comp_2", type := "thread_group", name := "TG", enabled := true,
           properties :=
             [ ("name", .vStr "TG"), ("num_threads", .vInt 5), ("ramp_time", .vInt 10),
               ("loops", .vInt 1), ("continue_forever", .vBool false),
               ("on_sample_error", .vStr "continue"), ("scheduler", .vBool false),
               ("duration", .vStr ""), ("delay", .vStr "") ],
           children := ["comp_3"], parent := some "comp_1" }),
        ("comp_3",
         { id := "comp_3", type := "http_request", name := "Health", enabled := true,
           properties :=
             [ ("name", .vStr "Health"), ("domain", .vStr "example.com"),
               ("port", .vStr ""), ("protocol", .vStr "https"),
               ("path", .vStr "/health"), ("method", .vStr "GET"),
               ("follow_redirects", .vBool true), ("auto_redirects", .vBool false),
               ("use_keepalive", .vBool true), ("body", .vStr ""),
               ("content_encoding", .vStr ""), ("connect_timeout", .vStr ""),
               ("response_timeout", .vStr "") ],
           children := [], parent := some "comp_2" }) ],
    root_components := ["comp_1"] }

set_option maxRecDepth 1000000 in
/-- C1: round trip.  Generating the XML text of a plan with one thread group
(num_threads 5, ramp_time 10) containing one HTTP GET request
(domain "example.com", path "/health") and parsing that text back yields a
plan of the same shape — one root (test plan), one thread-group child, one
sampler grandchild — with equal semantic values for those properties
(num_threads, ramp_time, domain, path, method), while every component id
(and the plan id) differs from the original. -/
theorem c1_round_trip :
    parse_jmx_xml (_generate_jmx_xml c1_plan) = some c1_parsed
    ∧ (c1_plan.root_components = ["tp"]
       ∧ (dictGet c1_plan.components "tp").map (·.children) = some ["tg"]
       ∧ (dictGet c1_plan.components "tg").map (·.children) = some ["hr"]
       ∧ (dictGet c1_plan.components "hr").map (·.children) = some [])
    ∧ (c1_parsed.root_components = ["comp_1"]
       ∧ (dictGet c1_parsed.components "comp_1").map (·.type) = some "test_plan"
       ∧ (dictGet c1_parsed.components "comp_1").map (·.children) = some ["comp_2"]
       ∧ (dictGet c1_parsed.components "comp_2").map (·.type) = some "thread_group"
       ∧ (dictGet c1_parsed.components "comp_2").map (·.children) = some ["comp_3"]
       ∧ (dictGet c1_parsed.components "comp_3").map (·.type) = some "http_request"
       ∧ (dictGet c1_parsed.components "comp_3").map (·.children) = some [])
    ∧ ((dictGet c1_parsed.components "comp_2").map (fun c => dictGet c.properties "num_threads")
         = some (dictGet c1_tg.properties "num_threads")
       ∧ (dictGet c1_parsed.components "comp_2").map (fun c => dictGet c.properties "ramp_time")
         = some (dictGet c1_tg.properties "ramp_time")
       ∧ (dictGet c1_parsed.components "comp_3").map (fun c => dictGet c.properties "domain")
         = some (dictGet c1_hr.properties "domain")
       ∧ (dictGet c1_parsed.components "comp_3").map (fun c => dictGet c.properties "path")
         = some (dictGet c1_hr.properties "path")
       ∧ (dictGet c1_parsed.components "comp_3").map (fun c => dictGet c.properties "method")
         = some (dictGet c1_hr.properties "method"))
    ∧ ((∀ i ∈ c1_parsed.components.map Prod.fst, i ∉ c1_plan.components.map Prod.fst)
       ∧ c1_parsed.id ≠ c1_plan.id) :=
  ⟨by rfl, by decide, by decide, by decide, by decide⟩

/-- A successful association-list lookup returns a binding of the list. -/
theorem dictGet_mem {α : Type} (m : List (String × α)) (k : String) (v : α)
    (h : dictGet m k = some v) : (k, v) ∈ m := by
  induction m with
  | nil => simp [dictGet] at h
  | cons p rest ih =>
      obtain ⟨k', v'⟩ := p
      by_cases hk : k = k'
      · subst hk
        simp [dictGet] at h
        simp [h]
      · simp [dictGet, hk] at h
        exact List.mem_cons_of_mem _ (ih h)

/-- The allowed-children set the hierarchy check consults for a parent of
the given type (empty when the type does not resolve). -/
def allowedChildrenOf (t : String) : List String :=
  ((dictGet JMX_COMPONENT_LIBRARY t).map (·.allowed_children)).getD []

/-- Both listener-category schemas in the library declare an empty
allowed-children set. -/
theorem listener_allowed_empty (t : String) (h : categoryOf t = some "listener") :
    allowedChildrenOf t = [] := by
  unfold categoryOf at h
  obtain ⟨cdef, hget, hcat⟩ := Option.map_eq_some'.mp h
  have hmem := dictGet_mem _ _ _ hget
  unfold allowedChildrenOf
  rw [hget]
  simp only [JMX_COMPONENT_LIBRARY, List.mem_cons, List.not_mem_nil, or_false,
    Prod.mk.injEq] at hmem
  rcases hmem with ⟨ht, rfl⟩|⟨ht, rfl⟩|⟨ht, rfl⟩|⟨ht, rfl⟩|⟨ht, rfl⟩|⟨ht, rfl⟩|⟨ht, rfl⟩|⟨ht, rfl⟩|⟨ht, rfl⟩|⟨ht, rfl⟩ <;>
    simp_all

/-- The only type tag of the thread-group (`"threads"`) category is
`"thread_group"`. -/
theorem categoryOf_threads_iff (t : String) :
    categoryOf t = some "threads" ↔ t = "thread_group" := by
  constructor
  · intro h
    unfold categoryOf at h
    obtain ⟨cdef, hget, hcat⟩ := Option.map_eq_some'.mp h
    have hmem := dictGet_mem _ _ _ hget
    simp only [JMX_COMPONENT_LIBRARY, List.mem_cons, List.not_mem_nil, or_false,
      Prod.mk.injEq] at hmem
    rcases hmem with ⟨ht, rfl⟩|⟨ht, rfl⟩|⟨ht, rfl⟩|⟨ht, rfl⟩|⟨ht, rfl⟩|⟨ht, rfl⟩|⟨ht, rfl⟩|⟨ht, rfl⟩|⟨ht, rfl⟩|⟨ht, rfl⟩ <;>
      simp_all
  · intro h
    subst h
    decide

/-- String equality through the underlying character lists. -/
theorem strData_eq (s t : String) : s = t ↔ s.data = t.data := by
  constructor
  · intro h; rw [h]
  · intro h; cases s; cases t; exact congrArg String.mk h

/-- String append associates. -/
theorem strAppend_assoc (a b c : String) : (a ++ b) ++ c = a ++ (b ++ c) := by
  rw [strData_eq]
  show (a.data ++ b.data) ++ c.data = a.data ++ (b.data ++ c.data)
  exact List.append_assoc _ _ _

/-- No per-component message (all prefixed `Component '`) coincides with the
missing-thread-group error. -/
theorem compPrefix_ne_tg (s : String) :
    "Component '" ++ s ≠ "Test plan must contain at least one Thread Group" := by
  intro h
  have h2 : ("Component '" ++ s).data.head? =
      ("Test plan must contain at least one Thread Group" : String).data.head? := by rw [h]
  have h3 : ("Component '" ++ s).data.head? = some 'C' := rfl
  rw [h3] at h2
  exact absurd (Option.some.inj h2) (by decide)

/-- Every error the per-component validation pass contributes is prefixed
with the component display name. -/
theorem comp_errs_shape (tp : JMXTestPlan) (e : String)
    (h : e ∈ tp.components.flatMap (fun p =>
      ((validate_component p.2).errors).map
        (fun e => "Component '" ++ p.2.name ++ "': " ++ e))) :
    ∃ s, e = "Component '" ++ s := by
  obtain ⟨p, _, hm⟩ := List.mem_flatMap.mp h
  obtain ⟨e0, _, rfl⟩ := List.mem_map.mp hm
  exact ⟨p.2.name ++ ("': " ++ e0), by rw [strAppend_assoc, strAppend_assoc]⟩

/-- Every error the hierarchy check contributes is prefixed with the
component display name. -/
theorem hier_errs_shape (comps : List (String × JMXComponent))
    (entry : String × JMXComponent) (e : String) (h : e ∈ hierCheck comps entry) :
    ∃ s, e = "Component '" ++ s := by
  dsimp only [hierCheck] at h
  split at h
  · simp at h
  · split at h
    · simp at h
    · split at h
      · simp at h
        exact ⟨entry.2.name ++ "' has invalid parent reference", by rw [h, strAppend_assoc]⟩
      · split at h
        · rename_i par heq hcond
          simp at h
          subst h
          exact ⟨entry.2.name ++ ("' cannot be a child of '" ++ (par.name ++ "'")),
            by rw [strAppend_assoc, strAppend_assoc, strAppend_assoc]⟩
        · simp at h

/-- The missing-thread-group error is present exactly when no component has
type `"thread_group"`: the prefixed per-component and hierarchy messages can
never collide with it. -/
theorem tg_err_mem_iff (tp : JMXTestPlan) :
    "Test plan must contain at least one Thread Group" ∈ (validate_test_plan tp).errors
    ↔ ¬ ∃ p ∈ tp.components, p.2.type = "thread_group" := by
  have herr : (validate_test_plan tp).errors =
      (if ¬ tp.components.any (fun p => p.2.type = "thread_group") then
        ["Test plan must contain at least one Thread Group"] else [])
      ++ (tp.components.flatMap (fun p =>
            ((validate_component p.2).errors).map
              (fun e => "Component '" ++ p.2.name ++ "': " ++ e))
          ++ tp.components.flatMap (hierCheck tp.components)) := by
    rw [← List.append_assoc]
    rfl
  rw [herr]
  have hcomp : "Test plan must contain at least one Thread Group" ∉
      tp.components.flatMap (fun p =>
        ((validate_component p.2).errors).map
          (fun e => "Component '" ++ p.2.name ++ "': " ++ e)) := by
    intro hmem
    obtain ⟨s, hs⟩ := comp_errs_shape tp _ hmem
    exact compPrefix_ne_tg s hs.symm
  have hhier : "Test plan must contain at least one Thread Group" ∉
      tp.components.flatMap (hierCheck tp.components) := by
    intro hmem
    obtain ⟨entry, _, hin⟩ := List.mem_flatMap.mp hmem
    obtain ⟨s, hs⟩ := hier_errs_shape _ _ _ hin
    exact compPrefix_ne_tg s hs.symm
  rw [List.mem_append, List.mem_append]
  constructor
  · rintro (hin | hin | hin)
    · by_cases hany : tp.components.any (fun p => p.2.type = "thread_group")
      · rw [if_neg (by simpa using hany)] at hin
        simp at hin
      · intro ⟨p, hp, ht⟩
        exact hany (List.any_eq_true.mpr ⟨p, hp, by simpa using ht⟩)
    · exact absurd hin hcomp
    · exact absurd hin hhier
  · intro hno
    left
    rw [if_pos]
    · exact List.mem_singleton.mpr rfl
    · intro hany
      obtain ⟨p, hp, ht⟩ := List.any_eq_true.mp hany
      exact hno ⟨p, hp, by simpa using ht⟩

/-- C4: a plan with no component of the thread-group (`"threads"`) category
validates invalid with the specific missing-thread-group error present, and
a plan containing such a component never carries that error. -/
theorem c4_missing_thread_group (tp : JMXTestPlan) :
    (¬ (∃ p ∈ tp.components, categoryOf p.2.type = some "threads") →
        (validate_test_plan tp).valid = false ∧
        "Test plan must contain at least one Thread Group" ∈ (validate_test_plan tp).errors)
    ∧ ((∃ p ∈ tp.components, categoryOf p.2.type = some "threads") →
        "Test plan must contain at least one Thread Group" ∉ (validate_test_plan tp).errors) := by
  have hbridge : (∃ p ∈ tp.components, categoryOf p.2.type = some "threads")
      ↔ ∃ p ∈ tp.components, p.2.type = "thread_group" := by
    constructor
    · rintro ⟨p, hp, hc⟩
      exact ⟨p, hp, (categoryOf_threads_iff _).mp hc⟩
    · rintro ⟨p, hp, hc⟩
      exact ⟨p, hp, (categoryOf_threads_iff _).mpr hc⟩
  constructor
  · intro hno
    have hmem := (tg_err_mem_iff tp).mpr (fun h => hno (hbridge.mpr h))
    refine ⟨?_, hmem⟩
    have hval : (validate_test_plan tp).valid = ((validate_test_plan tp).errors).isEmpty := rfl
    rw [hval]
    cases herrs : (validate_test_plan tp).errors with
    | nil => rw [herrs] at hmem; simp at hmem
    | cons a l => rfl
  · intro hyes hmem
    exact absurd ((tg_err_mem_iff tp).mp hmem) (by simpa using hbridge.mp hyes)

/-- A plan holding only an HTTP sampler (no thread group). -/
def c4_bad_plan : JMXTestPlan :=
  { id := "w4", name := "W4",
    components := [("h", { id := "h", type := "http_request", name := "H",
                           properties := [("name", .vStr "H")] })],
    root_components := ["h"] }

/-- A plan holding a single thread group. -/
def c4_good_plan : JMXTestPlan :=
  { id := "w4b", name := "W4b",
    components := [("t", { id := "t", type := "thread_group", name := "T",
                           properties := [("name", .vStr "T")] })],
    root_components := ["t"] }

/-- C4 witness: the sampler-only plan is invalid with the
missing-thread-group error present; the thread-group plan never carries it. -/
theorem c4_missing_thread_group_witness :
    ((validate_test_plan c4_bad_plan).valid = false ∧
      "Test plan must contain at least one Thread Group" ∈
        (validate_test_plan c4_bad_plan).errors) ∧
    "Test plan must contain at least one Thread Group" ∉
      (validate_test_plan c4_good_plan).errors :=
  ⟨(c4_missing_thread_group c4_bad_plan).1 (by decide),
   (c4_missing_thread_group c4_good_plan).2
     ⟨("t", { id := "t", type := "thread_group", name := "T",
              properties := [("name", .vStr "T")] }), by decide, by decide⟩⟩

set_option maxRecDepth 4000 in
/-- C10: the test-plan schema's allowed-children set lists the type name
`"thread_group"` but the hierarchy check membership-tests the child's
category (`"threads"`), so a thread group whose parent resolves to a
test-plan component is always reported with a "cannot be a child of"
hierarchy error. -/
theorem c10_thread_group_under_test_plan
    (tp : JMXTestPlan) (cid : String) (c : JMXComponent) (pid : String) (par : JMXComponent)
    (hmem : (cid, c) ∈ tp.components) (hty : c.type = "thread_group")
    (hpar : c.parent = some pid) (hpid : pid ≠ "")
    (hres : dictGet tp.components pid = some par) (hpty : par.type = "test_plan") :
    ("Component '" ++ c.name ++ "' cannot be a child of '" ++ par.name ++ "'")
      ∈ (validate_test_plan tp).errors := by
  have hhc : hierCheck tp.components (cid, c) =
      ["Component '" ++ c.name ++ "' cannot be a child of '" ++ par.name ++ "'"] := by
    dsimp only [hierCheck]
    rw [hpar]
    simp only [if_neg hpid]
    rw [hres]
    simp only [hty, hpty]
    rw [if_pos (by decide)]
  have hmem2 : ("Component '" ++ c.name ++ "' cannot be a child of '" ++ par.name ++ "'")
      ∈ tp.components.flatMap (hierCheck tp.components) :=
    List.mem_flatMap.mpr ⟨(cid, c), hmem, by rw [hhc]; exact List.mem_singleton.mpr rfl⟩
  exact List.mem_append_right _ hmem2

/-- A test plan component with a thread-group child, as built by the editor. -/
def c10_plan : JMXTestPlan :=
  { id := "w10", name := "W10",
    components :=
      [ ("p", { id := "p", type := "test_plan", name := "Plan",
                properties := [("name", .vStr "Plan")], children := ["t"] }),
        ("t", { id := "t", type := "thread_group", name := "Users",
                properties := [("name", .vStr "Users")], parent := some "p" }) ],
    root_components := ["p"] }

/-- C10 witness: the concrete plan is reported with the hierarchy error. -/
theorem c10_thread_group_under_test_plan_witness :
    ("Component '" ++ "Users" ++ "' cannot be a child of '" ++ "Plan" ++ "'")
      ∈ (validate_test_plan c10_plan).errors :=
  c10_thread_group_under_test_plan c10_plan "t"
    { id := "t", type := "thread_group", name := "Users",
      properties := [("name", .vStr "Users")], parent := some "p" }
    "p"
    { id := "p", type := "test_plan", name := "Plan",
      properties := [("name", .vStr "Plan")], children := ["t"] }
    (by decide) rfl rfl (by decide) (by decide) rfl

/-- C3: generation is gated on validation — an invalid plan yields exactly
the validation error list and no XML text; a valid plan yields the rendered
XML text. -/
theorem c3_generation_gates (tp : JMXTestPlan) :
    ((validate_test_plan tp).valid = false →
        generate_jmx tp = .validationFailed (validate_test_plan tp).errors)
    ∧ ((validate_test_plan tp).valid = true →
        generate_jmx tp = .success (_generate_jmx_xml tp)) := by
  constructor
  · intro h
    show (if (validate_test_plan tp).valid = true then GenResult.success (_generate_jmx_xml tp)
          else GenResult.validationFailed (validate_test_plan tp).errors) = _
    rw [h]
    rfl
  · intro h
    show (if (validate_test_plan tp).valid = true then GenResult.success (_generate_jmx_xml tp)
          else GenResult.validationFailed (validate_test_plan tp).errors) = _
    rw [h]
    rfl

/-- An empty plan (fails validation: no thread group). -/
def c3_bad_plan : JMXTestPlan :=
  { id := "w3", name := "W3", components := [], root_components := [] }

/-- A plan with one thread group (passes validation). -/
def c3_good_plan : JMXTestPlan :=
  { id := "w3b", name := "W3b",
    components := [("t", { id := "t", type := "thread_group", name := "T",
                           properties := [("name", .vStr "T")] })],
    root_components := ["t"] }

set_option maxRecDepth 100000 in
/-- C3 witness: the empty plan gets the error list and no XML; the
thread-group plan gets generated text. -/
theorem c3_generation_gates_witness :
    generate_jmx c3_bad_plan =
      .validationFailed ["Test plan must contain at least one Thread Group"] ∧
    generate_jmx c3_good_plan = .success (_generate_jmx_xml c3_good_plan) :=
  ⟨by rw [(c3_generation_gates c3_bad_plan).1 (by decide)]; rfl,
   (c3_generation_gates c3_good_plan).2 (by decide)⟩

/-- A thread group with a tree-view listener child that itself holds a
summary-report listener child. -/
def c5_plan : JMXTestPlan :=
  { id := "w5", name := "W5",
    components :=
      [ ("t", { id := "t", type := "thread_group", name := "T",
                properties := [("name", .vStr "T")], children := ["v"] }),
        ("v", { id := "v", type := "view_results_tree", name := "V",
                properties := [("name", .vStr "V")], children := ["s"], parent := some "t" }),
        ("s", { id := "s", type := "summary_report", name := "S",
                properties := [("name", .vStr "S")], parent := some "v" }) ],
    root_components := ["t"] }

set_option maxRecDepth 10000 in
/-- C5 counterexample: in `c5_plan` the summary-report listener sits directly
under the tree-view listener, whose allowed-children set (empty) excludes
listeners — yet `validate_test_plan` reports no error at all (in particular
no "cannot be a child of" hierarchy error), because an empty
allowed-children list disables the hierarchy check. -/
theorem c5_counterexample :
    categoryOf "view_results_tree" = some "listener"
    ∧ categoryOf "summary_report" = some "listener"
    ∧ "listener" ∉ allowedChildrenOf "view_results_tree"
    ∧ (dictGet c5_plan.components "s").map (·.parent) = some (some "v")
    ∧ (dictGet c5_plan.components "v").map (·.type) = some "view_results_tree"
    ∧ (validate_test_plan c5_plan).errors = []
    ∧ (validate_test_plan c5_plan).valid = true := by decide

/-- C5 (amended): a component whose parent id resolves to a listener-category
component is never given a hierarchy error — every listener schema declares
an empty allowed-children set, and an empty set disables the check — and a
sampler-category component whose parent resolves to a thread group is never
given one either. -/
theorem c5_listener_hierarchy :
    (∀ (comps : List (String × JMXComponent)) (entry : String × JMXComponent)
        (pid : String) (par : JMXComponent),
        entry.2.parent = some pid → dictGet comps pid = some par →
        categoryOf par.type = some "listener" →
        hierCheck comps entry = [])
    ∧ (∀ (comps : List (String × JMXComponent)) (entry : String × JMXComponent)
        (pid : String) (par : JMXComponent),
        entry.2.parent = some pid → dictGet comps pid = some par →
        par.type = "thread_group" → categoryOf entry.2.type = some "sampler" →
        hierCheck comps entry = []) := by
  constructor
  · intro comps entry pid par hpar hres hcat
    dsimp only [hierCheck]
    simp only [hpar]
    by_cases hpid : pid = ""
    · rw [if_pos hpid]
    · simp only [if_neg hpid, hres]
      have hal := listener_allowed_empty par.type hcat
      unfold allowedChildrenOf at hal
      rw [hal]
      simp
  · intro comps entry pid par hpar hres hty hcat
    dsimp only [hierCheck]
    simp only [hpar]
    by_cases hpid : pid = ""
    · rw [if_pos hpid]
    · simp only [if_neg hpid, hres, hty]
      obtain ⟨cdef, hget, hc⟩ := Option.map_eq_some'.mp hcat
      simp only [hget]
      rw [if_neg]
      intro ⟨_, hnot⟩
      apply hnot
      show cdef.category ∈ _
      rw [hc]
      decide

/-- A thread group with an HTTP sampler child. -/
def c5_http_plan_comps : List (String × JMXComponent) :=
  [ ("t", { id := "t", type := "thread_group", name := "T",
            properties := [("name", .vStr "T")], children := ["h"] }),
    ("h", { id := "h", type := "http_request", name := "H",
            properties := [("name", .vStr "H")], parent := some "t" }) ]

/-- C5 witness: the hierarchy check yields nothing for the summary report
under the tree-view listener, and nothing for the sampler under the thread
group. -/
theorem c5_listener_hierarchy_witness :
    hierCheck c5_plan.components
      ("s", { id := "s", type := "summary_report", name := "S",
              properties := [("name", .vStr "S")], parent := some "v" }) = []
    ∧ hierCheck c5_http_plan_comps
      ("h", { id := "h", type := "http_request", name := "H",
              properties := [("name", .vStr "H")], parent := some "t" }) = [] :=
  ⟨c5_listener_hierarchy.1 c5_plan.components _ "v"
      { id := "v", type := "view_results_tree", name := "V",
        properties := [("name", .vStr "V")], children := ["s"], parent := some "t" }
      rfl (by decide) (by decide),
   c5_listener_hierarchy.2 c5_http_plan_comps _ "t"
      { id := "t", type := "thread_group", name := "T",
        properties := [("name", .vStr "T")], children := ["h"] }
      rfl (by decide) rfl (by decide)⟩

/-- A thread group whose property bag carries only its name and a numeric
thread count `n`. -/
def c6_tg (n : Int) : JMXComponent :=
  { id := "c6", type := "thread_group", name := "TG",
    properties := [("name", .vStr "TG"), ("num_threads", .vInt n)] }

/-- The range-check shape of one numeric property: exactly one error per
violated bound, none at the boundary. -/
theorem prop_errors_range_shape (props : List (String × JValue)) (pname : String)
    (pdef : PropDef) (n lo hi : Int)
    (hget : dictGet props pname = some (.vInt n)) (hpt : pdef.ptype = "number")
    (hmin : pdef.min = some lo) (hmax : pdef.max = some hi) :
    prop_errors props (pname, pdef) =
      (if n < lo then ["Property '" ++ pname ++ "' must be >= " ++ toString lo] else [])
      ++ (if n > hi then ["Property '" ++ pname ++ "' must be <= " ++ toString hi] else []) := by
  dsimp only [prop_errors]
  simp only [hget, hpt, hmin, hmax]
  simp [isNumInstance, numVal]

set_option maxRecDepth 10000 in
/-- The validator's error list for `c6_tg n`: exactly the violated-bound
messages for `num_threads`. -/
theorem c6_lift_shape (n : Int) :
    (validate_component (c6_tg n)).errors =
      (if n < 1 then ["Property 'num_threads' must be >= 1"] else [])
      ++ (if n > 10000 then ["Property 'num_threads' must be <= 10000"] else []) := by
  simp [validate_component, c6_tg, JMX_COMPONENT_LIBRARY, dictGet, prop_errors,
    isNumInstance, numVal, show toString (1 : Int) = "1" from rfl,
    show toString (10000 : Int) = "10000" from rfl]

set_option maxRecDepth 10000 in
/-- C6: for a numeric-kind property carrying a numeric value with declared
bounds, the validator emits the below-minimum error exactly when the value is
strictly below the minimum and the above-maximum error exactly when it is
strictly above the maximum; boundary values are accepted (shown generally for
any property schema, and lifted to `validate_component` on a thread group's
`num_threads`, including the exact boundary evaluations). -/
theorem c6_numeric_range :
    (∀ (props : List (String × JValue)) (pname : String) (pdef : PropDef) (n lo hi : Int),
        dictGet props pname = some (.vInt n) → pdef.ptype = "number" →
        pdef.min = some lo → pdef.max = some hi →
        prop_errors props (pname, pdef) =
          (if n < lo then ["Property '" ++ pname ++ "' must be >= " ++ toString lo] else [])
          ++ (if n > hi then ["Property '" ++ pname ++ "' must be <= " ++ toString hi] else []))
    ∧ (∀ n : Int,
        ("Property 'num_threads' must be >= 1" ∈ (validate_component (c6_tg n)).errors ↔ n < 1)
        ∧ ("Property 'num_threads' must be <= 10000" ∈ (validate_component (c6_tg n)).errors ↔ n > 10000))
    ∧ ((validate_component (c6_tg 1)).errors = []
       ∧ (validate_component (c6_tg 10000)).errors = []
       ∧ (validate_component (c6_tg 0)).errors = ["Property 'num_threads' must be >= 1"]
       ∧ (validate_component (c6_tg 10001)).errors = ["Property 'num_threads' must be <= 10000"]) := by
  refine ⟨prop_errors_range_shape, ?_, by decide, by decide, by decide, by decide⟩
  intro n
  rw [c6_lift_shape n]
  by_cases h1 : n < 1 <;> by_cases h2 : n > 10000 <;>
    simp [h1, h2] <;> omega

/-- C6 witness: the port property at its upper boundary (65535) passes the
range check with no error. -/
theorem c6_numeric_range_witness :
    prop_errors [("port", .vInt 65535)]
      ("port", { ptype := "number", required := false, min := some 1, max := some 65535 }) = [] := by
  rw [c6_numeric_range.1 _ _ _ 65535 1 65535 (by decide) rfl rfl rfl]
  decide

/-- Prepending the empty string is the identity. -/
theorem str_empty_append (s : String) : "" ++ s = s := rfl

/-- At zero fuel the per-component markup of every id is empty. -/
theorem strJoin_markup_zero (dict : List (String × JMXComponent)) (lvl : Nat)
    (l : List String) :
    strJoin (l.map (fun i => componentMarkup 0 dict i lvl)) = "" := by
  induction l with
  | nil => rfl
  | cons a t ih =>
      show componentMarkup 0 dict a lvl ++ _ = ""
      rw [show componentMarkup 0 dict a lvl = "" from rfl, str_empty_append]
      exact ih

/-- The children wrapper only depends on the renderer through its value on
the component's children list. -/
theorem hashTreeWrapper_congr (lvl : Nat) (f g : List String → String)
    (c : JMXComponent) (hfg : f c.children = g c.children) :
    hashTreeWrapper lvl f c = hashTreeWrapper lvl g c := by
  unfold hashTreeWrapper
  rw [hfg]

/-- C2: wrapper pairing.  For a plan whose children ids all resolve, the
generator's `build_hierarchy` output is exactly the concatenation, in list
order, of each component's markup: its element immediately followed by one
children wrapper — self-closing when the children list is empty, and
otherwise containing the full markup of each child in children-list order
(`componentMarkup`). -/
theorem c2_wrapper_pairing (fuel : Nat) (dict : List (String × JMXComponent))
    (ids : List String) (lvl : Nat)
    (h : ∀ p ∈ dict, ∀ cid ∈ p.2.children, (dictGet dict cid).isSome) :
    build_hierarchy fuel dict ids lvl =
      strJoin (ids.map (fun i => componentMarkup fuel dict i lvl)) := by
  induction fuel generalizing ids lvl with
  | zero => rw [strJoin_markup_zero]; rfl
  | succ fuel ih =>
      induction ids with
      | nil => rfl
      | cons id rest ihr =>
          cases hg : dictGet dict id with
          | none =>
              have hl : build_hierarchy (fuel + 1) dict (id :: rest) lvl =
                  build_hierarchy (fuel + 1) dict rest lvl := by
                show (match dictGet dict id with
                      | none => ""
                      | some c =>
                          generate_component_xml c lvl ++ "\n" ++
                          hashTreeWrapper lvl
                            (fun cids => build_hierarchy fuel dict cids (lvl + 1)) c)
                    ++ bhGo dict lvl (fun cids => build_hierarchy fuel dict cids (lvl + 1)) rest
                  = _
                rw [hg]
                rfl
              have hm : componentMarkup (fuel + 1) dict id lvl = "" := by
                show (match dictGet dict id with
                      | none => ""
                      | some c =>
                          generate_component_xml c lvl ++ "\n" ++
                          hashTreeWrapper lvl
                            (fun cids => strJoin (cids.map
                              (fun i => componentMarkup fuel dict i (lvl + 1)))) c) = ""
                rw [hg]
              show build_hierarchy (fuel + 1) dict (id :: rest) lvl
                  = componentMarkup (fuel + 1) dict id lvl
                    ++ strJoin (rest.map (fun i => componentMarkup (fuel + 1) dict i lvl))
              rw [hl, hm, str_empty_append, ihr]
          | some c =>
              have hw := hashTreeWrapper_congr lvl
                (fun cids => build_hierarchy fuel dict cids (lvl + 1))
                (fun cids => strJoin (cids.map (fun i => componentMarkup fuel dict i (lvl + 1))))
                c (ih c.children (lvl + 1))
              have hl : build_hierarchy (fuel + 1) dict (id :: rest) lvl =
                  (generate_component_xml c lvl ++ "\n" ++
                    hashTreeWrapper lvl
                      (fun cids => build_hierarchy fuel dict cids (lvl + 1)) c)
                  ++ build_hierarchy (fuel + 1) dict rest lvl := by
                show (match dictGet dict id with
                      | none => ""
                      | some c =>
                          generate_component_xml c lvl ++ "\n" ++
                          hashTreeWrapper lvl
                            (fun cids => build_hierarchy fuel dict cids (lvl + 1)) c)
                    ++ bhGo dict lvl (fun cids => build_hierarchy fuel dict cids (lvl + 1)) rest
                  = _
                rw [hg]
                rfl
              have hm : componentMarkup (fuel + 1) dict id lvl =
                  generate_component_xml c lvl ++ "\n" ++
                  hashTreeWrapper lvl
                    (fun cids => strJoin (cids.map
                      (fun i => componentMarkup fuel dict i (lvl + 1)))) c := by
                show (match dictGet dict id with
                      | none => ""
                      | some c =>
                          generate_component_xml c lvl ++ "\n" ++
                          hashTreeWrapper lvl
                            (fun cids => strJoin (cids.map
                              (fun i => componentMarkup fuel dict i (lvl + 1)))) c) = _
                rw [hg]
              show build_hierarchy (fuel + 1) dict (id :: rest) lvl
                  = componentMarkup (fuel + 1) dict id lvl
                    ++ strJoin (rest.map (fun i => componentMarkup (fuel + 1) dict i lvl))
              rw [hl, hm, hw, ihr]

/-- A two-component dictionary whose children ids all resolve. -/
def c2_dict : List (String × JMXComponent) :=
  [ ("a", { id := "a", type := "thread_group", name := "A",
            properties := [("name", .vStr "A")], children := ["b"] }),
    ("b", { id := "b", type := "http_request", name := "B",
            properties := [("name", .vStr "B")] }) ]

/-- C2 witness: the wrapper-pairing equation at a concrete two-level plan. -/
theorem c2_wrapper_pairing_witness :
    build_hierarchy 3 c2_dict ["a"] 2 =
      strJoin (["a"].map (fun i => componentMarkup 3 c2_dict i 2)) :=
  c2_wrapper_pairing 3 c2_dict ["a"] 2 (by decide)

/-- A well-formed document whose thread group carries a non-numeric thread
count. -/
def c7_doc : String :=
  "<jmeterTestPlan><hashTree><ThreadGroup testclass=\"ThreadGroup\" testname=\"TG\"><stringProp name=\"ThreadGroup.num_threads\">abc</stringProp></ThreadGroup><hashTree/></hashTree></jmeterTestPlan>"

set_option maxRecDepth 100000 in
/-- C7: a thread-count string that does not parse as an integer falls back
to the schema default 1 (proved for every element), and parsing a concrete
well-formed document with thread count `"abc"` still succeeds, producing a
thread group whose `num_threads` is 1. -/
theorem c7_malformed_numeric :
    (∀ (fuel : Nat) (id : String) (elem : XML),
        pyInt (get_string_prop fuel elem "ThreadGroup.num_threads" "1") = none →
        dictGet (parse_thread_group_element fuel id elem).properties "num_threads"
          = some (.vInt 1))
    ∧ (pyInt "abc" = none
       ∧ (parse_jmx_xml c7_doc).isSome = true
       ∧ (parse_jmx_xml c7_doc).map (fun tp => (dictGet tp.components "comp_1").map (·.type))
          = some (some "thread_group")
       ∧ (parse_jmx_xml c7_doc).bind
          (fun tp => (dictGet tp.components "comp_1").bind
            (fun c => dictGet c.properties "num_threads")) = some (.vInt 1)) := by
  constructor
  · intro fuel id elem h
    dsimp only [parse_thread_group_element]
    simp [dictGet, h]
  · exact ⟨rfl, rfl, rfl, rfl⟩

/-- The thread-group element of `c7_doc` as the parser sees it. -/
def c7_elem : XML :=
  .elem "ThreadGroup" [("testclass", "ThreadGroup"), ("testname", "TG")] ""
    [.elem "stringProp" [("name", "ThreadGroup.num_threads")] "abc" []]

/-- C7 witness: the schema-default fallback at the concrete element. -/
theorem c7_malformed_numeric_witness :
    dictGet (parse_thread_group_element 10 "x" c7_elem).properties "num_threads"
      = some (.vInt 1) :=
  c7_malformed_numeric.1 10 "x" c7_elem rfl

/-- The class strings the parser's dispatch recognizes. -/
def recognizedClasses : List String :=
  ["TestPlan", "ThreadGroup", "HTTPSamplerProxy", "TransactionController", "HeaderManager",
   "ResultCollector", "ConstantTimer", "UniformRandomTimer", "GaussianRandomTimer",
   "ResponseAssertion", "JSONPathAssertion", "XPathAssertion"]

/-- A well-formed document with an unrecognized element class
(`DebugSampler`) that carries a display name, sitting under a thread
group. -/
def c8_doc : String :=
  "<jmeterTestPlan><hashTree><ThreadGroup testclass=\"ThreadGroup\" testname=\"TG\"><stringProp name=\"ThreadGroup.num_threads\">2</stringProp></ThreadGroup><hashTree><DebugSampler testclass=\"DebugSampler\" testname=\"My Debug\"/><hashTree/></hashTree></hashTree></jmeterTestPlan>"

set_option maxRecDepth 100000 in
/-- C8 counterexample: parsing `c8_doc` produces an `"unknown"` component
for the unrecognized `DebugSampler` element, but its properties hold only
the display name `"My Debug"` — no property retains the original class
string `"DebugSampler"`, refuting "properties retain the original class name
and display name". -/
theorem c8_counterexample :
    "DebugSampler" ∉ recognizedClasses
    ∧ (parse_jmx_xml c8_doc).map (fun tp => (dictGet tp.components "comp_2").map (·.type))
        = some (some "unknown")
    ∧ (parse_jmx_xml c8_doc).map (fun tp => (dictGet tp.components "comp_2").map (·.properties))
        = some (some [("name", .vStr "My Debug")])
    ∧ (parse_jmx_xml c8_doc).map (fun tp => (dictGet tp.components "comp_2").map
         (fun c => c.properties.all (fun p => !(strContains (jStr p.2) "DebugSampler"))))
        = some (some true) :=
  ⟨by decide, rfl, rfl, rfl⟩

set_option maxRecDepth 100000 in
/-- C8 (amended): an element whose class is unrecognized parses to a
component of type `"unknown"` whose single `name` property holds the display
name when a `testname` attribute is present, and otherwise the fallback
`"Unknown (<class>)"` — only the fallback embeds the class name.  The
component keeps the element's structural position: in `c8_doc` the unknown
component is the child of the preceding thread group. -/
theorem c8_unknown_fallback :
    (∀ (fuel : Nat) (id : String) (elem : XML),
        attrGetD elem "testclass" "" ∉ recognizedClasses →
        parse_component_element fuel id elem =
          { id := id, type := "unknown",
            name := attrGetD elem "testname"
              ("Unknown (" ++ attrGetD elem "testclass" "" ++ ")"),
            enabled := strToLower (attrGetD elem "enabled" "true") = "true",
            properties := [("name", .vStr (attrGetD elem "testname"
              ("Unknown (" ++ attrGetD elem "testclass" "" ++ ")")))],
            children := [], parent := none })
    ∧ ((parse_jmx_xml c8_doc).map (fun tp => (dictGet tp.components "comp_2").map (·.parent))
        = some (some (some "comp_1"))
       ∧ (parse_jmx_xml c8_doc).map (fun tp => (dictGet tp.components "comp_1").map (·.children))
        = some (some ["comp_2"])
       ∧ (parse_jmx_xml c8_doc).map (·.root_components) = some ["comp_1"]) := by
  constructor
  · intro fuel id elem hn
    simp only [recognizedClasses, List.mem_cons, List.not_mem_nil, or_false, not_or] at hn
    obtain ⟨h1, h2, h3, h4, h5, h6, h7, h8, h9, h10, h11, h12⟩ := hn
    dsimp only [parse_component_element]
    simp [h1, h2, h3, h4, h5, h6, h7, h8, h9, h10, h11, h12]
  · exact ⟨rfl, rfl, rfl⟩

/-- The unrecognized element of `c8_doc` as the parser sees it. -/
def c8_elem : XML :=
  .elem "DebugSampler" [("testclass", "DebugSampler"), ("testname", "My Debug")] "" []

/-- C8 witness: the generic-fallback shape at the concrete element. -/
theorem c8_unknown_fallback_witness :
    parse_component_element 5 "k" c8_elem =
      { id := "k", type := "unknown", name := "My Debug", enabled := true,
        properties := [("name", .vStr "My Debug")], children := [], parent := none } := by
  rw [c8_unknown_fallback.1 5 "k" c8_elem (by decide)]
  rfl

/-- Decimal digit characters. -/
def isDig (c : Char) : Prop :=
  c ∈ (['0','1','2','3','4','5','6','7','8','9'] : List Char)

instance (c : Char) : Decidable (isDig c) := by
  unfold isDig
  infer_instance

/-- Value of a digit character. -/
def digVal : Char → Nat
  | '0' => 0 | '1' => 1 | '2' => 2 | '3' => 3 | '4' => 4
  | '5' => 5 | '6' => 6 | '7' => 7 | '8' => 8 | '9' => 9 | _ => 0

/-- Value of a little-endian digit string. -/
def valLE : List Char → Nat
  | [] => 0
  | c :: rest => digVal c + 10 * valLE rest

theorem isDig_succDig (c : Char) (h : isDig c) (h9 : c ≠ '9') : isDig (succDig c) := by
  simp only [isDig, List.mem_cons, List.not_mem_nil, or_false] at h
  rcases h with rfl|rfl|rfl|rfl|rfl|rfl|rfl|rfl|rfl|rfl <;>
    first
      | exact absurd rfl h9
      | decide

theorem digVal_succDig (c : Char) (h : isDig c) (h9 : c ≠ '9') :
    digVal (succDig c) = digVal c + 1 := by
  simp only [isDig, List.mem_cons, List.not_mem_nil, or_false] at h
  rcases h with rfl|rfl|rfl|rfl|rfl|rfl|rfl|rfl|rfl|rfl <;>
    first
      | exact absurd rfl h9
      | decide

theorem incDigitsLE_digits (l : List Char) (h : ∀ c ∈ l, isDig c) :
    ∀ c ∈ incDigitsLE l, isDig c := by
  induction l with
  | nil =>
      intro c hc
      rw [show incDigitsLE [] = ['1'] from rfl] at hc
      rcases List.mem_cons.mp hc with rfl | h0
      · decide
      · exact absurd h0 (List.not_mem_nil c)
  | cons a rest ih =>
      intro c hc
      by_cases h9 : a = '9'
      · subst h9
        rw [show incDigitsLE ('9' :: rest) = '0' :: incDigitsLE rest from by
          simp [incDigitsLE]] at hc
        rcases List.mem_cons.mp hc with rfl | h0
        · decide
        · exact ih (fun d hd => h d (List.mem_cons_of_mem _ hd)) c h0
      · rw [show incDigitsLE (a :: rest) = succDig a :: rest from by
          simp [incDigitsLE, h9]] at hc
        rcases List.mem_cons.mp hc with rfl | h0
        · exact isDig_succDig a (h a (List.mem_cons_self _ _)) h9
        · exact h c (List.mem_cons_of_mem _ h0)

theorem valLE_inc (l : List Char) (h : ∀ c ∈ l, isDig c) :
    valLE (incDigitsLE l) = valLE l + 1 := by
  induction l with
  | nil => decide
  | cons a rest ih =>
      by_cases h9 : a = '9'
      · subst h9
        show valLE ('0' :: incDigitsLE rest) = valLE ('9' :: rest) + 1
        show digVal '0' + 10 * valLE (incDigitsLE rest) = digVal '9' + 10 * valLE rest + 1
        rw [ih (fun d hd => h d (List.mem_cons_of_mem _ hd))]
        show 0 + 10 * (valLE rest + 1) = 9 + 10 * valLE rest + 1
        omega
      · show valLE (incDigitsLE (a :: rest)) = valLE (a :: rest) + 1
        rw [show incDigitsLE (a :: rest) = succDig a :: rest from by
          simp [incDigitsLE, h9]]
        show digVal (succDig a) + 10 * valLE rest = digVal a + 10 * valLE rest + 1
        rw [digVal_succDig a (h a (List.mem_cons_self _ _)) h9]
        omega

theorem natDigitsLE_digits (n : Nat) : ∀ c ∈ natDigitsLE n, isDig c := by
  induction n with
  | zero => intro c hc; simp only [natDigitsLE, List.mem_singleton] at hc; subst hc; decide
  | succ n ih => exact incDigitsLE_digits _ ih

theorem valLE_natDigitsLE (n : Nat) : valLE (natDigitsLE n) = n := by
  induction n with
  | zero => decide
  | succ n ih =>
      show valLE (incDigitsLE (natDigitsLE n)) = n + 1
      rw [valLE_inc _ (natDigitsLE_digits n), ih]

theorem natStr_inj (a b : Nat) (h : natStr a = natStr b) : a = b := by
  have hd : (natDigitsLE a).reverse = (natDigitsLE b).reverse := congrArg String.data h
  have h2 := List.reverse_injective hd
  have h3 := congrArg valLE h2
  rwa [valLE_natDigitsLE, valLE_natDigitsLE] at h3

theorem cidOf_inj (a b : Nat) (h : cidOf a = cidOf b) : a = b := by
  have hd : "comp_".data ++ (natStr a).data = "comp_".data ++ (natStr b).data :=
    congrArg String.data h
  have h2 := List.append_cancel_left hd
  exact natStr_inj a b ((strData_eq _ _).mpr h2)

theorem cidOf_ne_empty (j : Nat) : cidOf j ≠ "" := by
  intro h
  have hd : "comp_".data ++ (natStr j).data = ([] : List Char) := congrArg String.data h
  simp at hd

/-- Lookup distributes over list append, first list first. -/
theorem dictGet_append {α : Type} (m1 m2 : List (String × α)) (k : String) :
    dictGet (m1 ++ m2) k =
      match dictGet m1 k with
      | some v => some v
      | none => dictGet m2 k := by
  induction m1 with
  | nil => rfl
  | cons p rest ih =>
      obtain ⟨k', v⟩ := p
      by_cases hk : k = k'
      · simp [dictGet, hk]
      · simp [dictGet, hk, ih]

/-- Setting an absent key appends the binding. -/
theorem dictSet_fresh {α : Type} (m : List (String × α)) (k : String) (v : α)
    (h : dictGet m k = none) : dictSet m k v = m ++ [(k, v)] := by
  induction m with
  | nil => rfl
  | cons p rest ih =>
      obtain ⟨k', w⟩ := p
      by_cases hk : k = k'
      · rw [dictGet, if_pos hk] at h
        exact absurd h (by simp)
      · rw [dictGet, if_neg hk] at h
        show (if k' = k then _ else _) = _
        rw [if_neg (fun he => hk he.symm)]
        rw [ih h]
        rfl

/-- Lookup after `appendChild`: the parent's stored component gains the
child id; every other key is untouched. -/
theorem appendChild_get (m : List (String × JMXComponent)) (pid cid k : String) :
    dictGet (appendChild m pid cid) k =
      if k = pid then
        (dictGet m pid).map (fun c => { c with children := c.children ++ [cid] })
      else dictGet m k := by
  induction m with
  | nil => by_cases hk : k = pid <;> simp [appendChild, dictGet, hk]
  | cons p rest ih =>
      obtain ⟨k', c⟩ := p
      by_cases hp : k' = pid
      · subst hp
        by_cases hk : k = k'
        · simp [appendChild, dictGet, hk]
        · simp [appendChild, dictGet, hk]
      · rw [show appendChild ((k', c) :: rest) pid cid =
            (k', c) :: appendChild rest pid cid from by simp [appendChild, hp]]
        by_cases hk : k = k'
        · subst hk
          rw [show dictGet ((k, c) :: appendChild rest pid cid) k = some c from by
            simp [dictGet]]
          rw [if_neg hp]
          rw [show dictGet ((k, c) :: rest) k = some c from by simp [dictGet]]
        · rw [show dictGet ((k', c) :: appendChild rest pid cid) k =
              dictGet (appendChild rest pid cid) k from by simp [dictGet, hk]]
          rw [ih]
          rw [show dictGet ((k', c) :: rest) k = dictGet rest k from by
            simp [dictGet, hk]]
          rw [show dictGet ((k', c) :: rest) pid = dictGet rest pid from by
            simp [dictGet, show ¬ pid = k' from fun h => hp h.symm]]

/-- Membership after `appendChild`: every binding comes from an original
binding, unchanged or (for the parent key) with the child id appended. -/
theorem appendChild_mem (m : List (String × JMXComponent)) (pid cid k : String)
    (c : JMXComponent) (h : (k, c) ∈ appendChild m pid cid) :
    ∃ c0, (k, c0) ∈ m ∧
      (c = c0 ∨ (k = pid ∧ c = { c0 with children := c0.children ++ [cid] })) := by
  induction m with
  | nil => simp [appendChild] at h
  | cons p rest ih =>
      obtain ⟨k', c'⟩ := p
      by_cases hp : k' = pid
      · subst hp
        rw [show appendChild ((k', c') :: rest) k' cid =
            (k', { c' with children := c'.children ++ [cid] }) :: rest from by
          simp [appendChild]] at h
        rcases List.mem_cons.mp h with heq | hmem
        · injection heq with hk hc
          exact ⟨c', by rw [hk]; exact List.mem_cons_self _ _, Or.inr ⟨hk, hc⟩⟩
        · exact ⟨c, List.mem_cons_of_mem _ hmem, Or.inl rfl⟩
      · rw [show appendChild ((k', c') :: rest) pid cid =
            (k', c') :: appendChild rest pid cid from by
          simp [appendChild, hp]] at h
        rcases List.mem_cons.mp h with heq | hmem
        · injection heq with hk hc
          exact ⟨c', by rw [hk]; exact List.mem_cons_self _ _, Or.inl hc⟩
        · obtain ⟨c0, hc0, hor⟩ := ih hmem
          exact ⟨c0, List.mem_cons_of_mem _ hc0, hor⟩

/-- Total number of occurrences of an id across all children lists. -/
def childOcc (comps : List (String × JMXComponent)) (x : String) : Nat :=
  (comps.map (fun p => p.2.children.count x)).sum

theorem childOcc_append (m1 m2 : List (String × JMXComponent)) (x : String) :
    childOcc (m1 ++ m2) x = childOcc m1 x + childOcc m2 x := by
  simp [childOcc]

/-- `appendChild` adds one occurrence of the child id when the parent key
resolves, and nothing else. -/
theorem childOcc_appendChild (m : List (String × JMXComponent)) (pid cid x : String) :
    childOcc (appendChild m pid cid) x =
      childOcc m x +
        (if (dictGet m pid).isSome then (if cid = x then 1 else 0) else 0) := by
  induction m with
  | nil => simp [appendChild, childOcc, dictGet]
  | cons p rest ih =>
      obtain ⟨k', c⟩ := p
      by_cases hp : k' = pid
      · subst hp
        rw [show appendChild ((k', c) :: rest) k' cid =
            (k', { c with children := c.children ++ [cid] }) :: rest from by
          simp [appendChild]]
        show ((c.children ++ [cid]).count x) + childOcc rest x = _
        rw [List.count_append]
        rw [show dictGet ((k', c) :: rest) k' = some c from by simp [dictGet]]
        show c.children.count x + [cid].count x + childOcc rest x =
          c.children.count x + childOcc rest x + (if cid = x then 1 else 0)
        by_cases hx : cid = x
        · subst hx
          rw [if_pos rfl]
          rw [show [cid].count cid = 1 from by simp]
          omega
        · rw [if_neg hx]
          rw [show [cid].count x = 0 from List.count_eq_zero.mpr
            (fun hmem => hx (List.mem_singleton.mp hmem).symm)]
          omega
      · rw [show appendChild ((k', c) :: rest) pid cid =
            (k', c) :: appendChild rest pid cid from by simp [appendChild, hp]]
        show c.children.count x + childOcc (appendChild rest pid cid) x = _
        rw [ih]
        rw [show dictGet ((k', c) :: rest) pid = dictGet rest pid from by
          simp [dictGet, show ¬ pid = k' from fun h => hp h.symm]]
        show _ = c.children.count x + childOcc rest x + _
        omega

/-- An id occurring in no children list has zero total occurrences. -/
theorem childOcc_zero (m : List (String × JMXComponent)) (x : String)
    (h : ∀ k c, (k, c) ∈ m → x ∉ c.children) : childOcc m x = 0 := by
  induction m with
  | nil => rfl
  | cons p rest ih =>
      obtain ⟨k', c⟩ := p
      show c.children.count x + childOcc rest x = 0
      rw [List.count_eq_zero.mpr (h k' c (List.mem_cons_self _ _)),
        ih (fun k c hm => h k c (List.mem_cons_of_mem _ hm))]

/-- Lookup after `dictSet`. -/
theorem dictSet_get {α : Type} (m : List (String × α)) (k : String) (v : α)
    (key : String) :
    dictGet (dictSet m k v) key = if key = k then some v else dictGet m key := by
  induction m with
  | nil => by_cases hk : key = k <;> simp [dictSet, dictGet, hk]
  | cons p rest ih =>
      obtain ⟨k', w⟩ := p
      by_cases hke : k' = k
      · subst hke
        by_cases hk : key = k'
        · simp [dictSet, dictGet, hk]
        · simp [dictSet, dictGet, hk]
      · rw [show dictSet ((k', w) :: rest) k v = (k', w) :: dictSet rest k v from by
          simp [dictSet, hke]]
        by_cases hk : key = k'
        · subst hk
          rw [show dictGet ((key, w) :: dictSet rest k v) key = some w from by
            simp [dictGet]]
          rw [if_neg hke]
          rw [show dictGet ((key, w) :: rest) key = some w from by simp [dictGet]]
        · rw [show dictGet ((k', w) :: dictSet rest k v) key =
              dictGet (dictSet rest k v) key from by simp [dictGet, hk]]
          rw [ih]
          rw [show dictGet ((k', w) :: rest) key = dictGet rest key from by
            simp [dictGet, hk]]

/-- The doubly-linked tree invariant the parser maintains: ids are
counter-generated below `n`, every parent pointer resolves with the child
registered exactly once in that parent's children list and nowhere else, and
every parentless component sits exactly once on the root list and in no
children list. -/
structure PInv (n : Nat) (tp : JMXTestPlan) : Prop where
  keys_lt : ∀ k c, (k, c) ∈ tp.components → ∃ j, j < n ∧ k = cidOf j
  children_lt : ∀ k c, (k, c) ∈ tp.components → ∀ x ∈ c.children, ∃ j, j < n ∧ x = cidOf j
  roots_lt : ∀ x ∈ tp.root_components, ∃ j, j < n ∧ x = cidOf j
  linked : ∀ k c, (k, c) ∈ tp.components →
    (∀ pid, c.parent = some pid →
      (∃ par, dictGet tp.components pid = some par ∧ par.children.count k = 1)
      ∧ childOcc tp.components k = 1 ∧ tp.root_components.count k = 0)
    ∧ (c.parent = none →
      tp.root_components.count k = 1 ∧ childOcc tp.components k = 0)

/-- The next counter id is not a key yet. -/
theorem fresh_get_none (n : Nat) (tp : JMXTestPlan) (hI : PInv n tp) :
    dictGet tp.components (cidOf n) = none := by
  cases hdg : dictGet tp.components (cidOf n) with
  | none => rfl
  | some c =>
      obtain ⟨j, hj, heq⟩ := hI.keys_lt _ _ (dictGet_mem _ _ _ hdg)
      have := cidOf_inj _ _ heq
      omega

/-- The next counter id occurs in no children list yet. -/
theorem fresh_childOcc_zero (n : Nat) (tp : JMXTestPlan) (hI : PInv n tp) :
    childOcc tp.components (cidOf n) = 0 :=
  childOcc_zero _ _ (fun k c hm hx => by
    obtain ⟨j, hj, heq⟩ := hI.children_lt k c hm _ hx
    have := cidOf_inj _ _ heq
    omega)

/-- The next counter id is not on the root list yet. -/
theorem fresh_roots_zero (n : Nat) (tp : JMXTestPlan) (hI : PInv n tp) :
    tp.root_components.count (cidOf n) = 0 :=
  List.count_eq_zero.mpr (fun hm => by
    obtain ⟨j, hj, heq⟩ := hI.roots_lt _ hm
    have := cidOf_inj _ _ heq
    omega)

/-- A stored key is a counter id below `n`, hence distinct from `cidOf n`. -/
theorem stored_key_ne_fresh (n : Nat) (tp : JMXTestPlan) (hI : PInv n tp)
    (k : String) (c : JMXComponent) (h : (k, c) ∈ tp.components) : k ≠ cidOf n := by
  obtain ⟨j, hj, heq⟩ := hI.keys_lt _ _ h
  intro hkk
  have := cidOf_inj _ _ (hkk ▸ heq : cidOf n = cidOf j)
  omega

/-- Attaching a parentless component appends it to the map and the root
list, preserving the tree invariant. -/
theorem attach_inv_none (n : Nat) (tp : JMXTestPlan) (comp : JMXComponent)
    (hI : PInv n tp) (hch : comp.children = []) (hpar : comp.parent = none) :
    PInv (n + 1) (attachComponent (cidOf n) none comp tp)
    ∧ dictGet (attachComponent (cidOf n) none comp tp).components (cidOf n) = some comp
    ∧ (∀ k, (dictGet tp.components k).isSome →
        (dictGet (attachComponent (cidOf n) none comp tp).components k).isSome) := by
  have hfresh := fresh_get_none n tp hI
  have hc2 : (attachComponent (cidOf n) none comp tp).components =
      tp.components ++ [(cidOf n, comp)] := by
    dsimp only [attachComponent]
    rw [dictSet_fresh _ _ _ hfresh]
    split <;> rfl
  have hr2 : (attachComponent (cidOf n) none comp tp).root_components =
      tp.root_components ++ [cidOf n] := by
    dsimp only [attachComponent]
    split <;> rfl
  have happend : ∀ q v, dictGet tp.components q = some v →
      dictGet (tp.components ++ [(cidOf n, comp)]) q = some v := by
    intro q v hv
    rw [dictGet_append, hv]
  have hnew : dictGet (tp.components ++ [(cidOf n, comp)]) (cidOf n) = some comp := by
    rw [dictGet_append, hfresh]
    simp [dictGet]
  have hocc2 : ∀ x, childOcc (tp.components ++ [(cidOf n, comp)]) x =
      childOcc tp.components x := by
    intro x
    rw [childOcc_append]
    show _ + (comp.children.count x + 0) = _
    rw [hch]
    simp
  refine ⟨⟨?_, ?_, ?_, ?_⟩, ?_, ?_⟩
  · intro k c hm
    rw [hc2] at hm
    rcases List.mem_append.mp hm with hm | hm
    · obtain ⟨j, hj, he⟩ := hI.keys_lt _ _ hm
      exact ⟨j, by omega, he⟩
    · rcases List.mem_singleton.mp hm with heq
      injection heq with hk hc
      exact ⟨n, by omega, hk⟩
  · intro k c hm x hx
    rw [hc2] at hm
    rcases List.mem_append.mp hm with hm | hm
    · obtain ⟨j, hj, he⟩ := hI.children_lt _ _ hm x hx
      exact ⟨j, by omega, he⟩
    · rcases List.mem_singleton.mp hm with heq
      injection heq with hk hc
      rw [hc, hch] at hx
      exact absurd hx (List.not_mem_nil x)
  · intro x hx
    rw [hr2] at hx
    rcases List.mem_append.mp hx with hx | hx
    · obtain ⟨j, hj, he⟩ := hI.roots_lt _ hx
      exact ⟨j, by omega, he⟩
    · exact ⟨n, by omega, List.mem_singleton.mp hx⟩
  · intro k c hm
    rw [hc2] at hm
    rcases List.mem_append.mp hm with hm | hm
    · have hkne := stored_key_ne_fresh n tp hI k c hm
      have hrc : (tp.root_components ++ [cidOf n]).count k =
          tp.root_components.count k := by
        rw [List.count_append]
        rw [show [cidOf n].count k = 0 from List.count_eq_zero.mpr
          (fun hmem => hkne (List.mem_singleton.mp hmem))]
        omega
      constructor
      · intro pid hp
        obtain ⟨⟨par, hpg, hpc⟩, hocc, hroc⟩ := (hI.linked _ _ hm).1 pid hp
        refine ⟨⟨par, ?_, hpc⟩, ?_, ?_⟩
        · rw [hc2]
          exact happend _ _ hpg
        · rw [hc2, hocc2, hocc]
        · rw [hr2, hrc, hroc]
      · intro hp
        obtain ⟨hroc, hocc⟩ := (hI.linked _ _ hm).2 hp
        refine ⟨?_, ?_⟩
        · rw [hr2, hrc, hroc]
        · rw [hc2, hocc2, hocc]
    · rcases List.mem_singleton.mp hm with heq
      injection heq with hk hcc
      subst hk
      subst hcc
      constructor
      · intro pid hp
        rw [hpar] at hp
        exact absurd hp (by simp)
      · intro _
        constructor
        · rw [hr2, List.count_append, fresh_roots_zero n tp hI]
          simp
        · rw [hc2, hocc2, fresh_childOcc_zero n tp hI]
  · rw [hc2]
    exact hnew
  · intro k hk
    rw [hc2]
    cases hdg : dictGet tp.components k with
    | none => rw [hdg] at hk; simp at hk
    | some v => rw [happend _ _ hdg]; rfl

/-- Attaching a component under a resolving parent id appends it to the map
and registers it exactly once in that parent's children list, preserving the
tree invariant. -/
theorem attach_inv_some (n : Nat) (tp : JMXTestPlan) (comp : JMXComponent)
    (pid : String) (par : JMXComponent) (hI : PInv n tp)
    (hch : comp.children = []) (hpar : comp.parent = some pid)
    (hpj : ∃ j, j < n ∧ pid = cidOf j)
    (hres : dictGet tp.components pid = some par) :
    PInv (n + 1) (attachComponent (cidOf n) (some pid) comp tp)
    ∧ dictGet (attachComponent (cidOf n) (some pid) comp tp).components (cidOf n) = some comp
    ∧ (∀ k, (dictGet tp.components k).isSome →
        (dictGet (attachComponent (cidOf n) (some pid) comp tp).components k).isSome) := by
  have hfresh := fresh_get_none n tp hI
  have hpidne : pid ≠ cidOf n := by
    obtain ⟨j, hj, he⟩ := hpj
    intro hc
    have := cidOf_inj _ _ (hc ▸ he : cidOf n = cidOf j)
    omega
  have hpidempty : pid ≠ "" := by
    obtain ⟨j, _, he⟩ := hpj
    rw [he]
    exact cidOf_ne_empty j
  have happend : ∀ q v, dictGet tp.components q = some v →
      dictGet (tp.components ++ [(cidOf n, comp)]) q = some v := by
    intro q v hv
    rw [dictGet_append, hv]
  have hmpid : dictGet (tp.components ++ [(cidOf n, comp)]) pid = some par :=
    happend _ _ hres
  have hmcid : dictGet (tp.components ++ [(cidOf n, comp)]) (cidOf n) = some comp := by
    rw [dictGet_append, hfresh]
    simp [dictGet]
  have hcond : pid ≠ "" ∧
      (dictGet (tp.components ++ [(cidOf n, comp)]) pid).isSome := by
    refine ⟨hpidempty, ?_⟩
    rw [hmpid]
    rfl
  have hc2 : (attachComponent (cidOf n) (some pid) comp tp).components =
      appendChild (tp.components ++ [(cidOf n, comp)]) pid (cidOf n) := by
    dsimp only [attachComponent]
    rw [dictSet_fresh _ _ _ hfresh]
    rw [if_pos hcond]
  have hr2 : (attachComponent (cidOf n) (some pid) comp tp).root_components =
      tp.root_components := by
    dsimp only [attachComponent]
    rw [dictSet_fresh _ _ _ hfresh]
    rw [if_pos hcond]
  have hget3 : ∀ q, dictGet (appendChild (tp.components ++ [(cidOf n, comp)]) pid (cidOf n)) q =
      if q = pid then some { par with children := par.children ++ [cidOf n] }
      else dictGet (tp.components ++ [(cidOf n, comp)]) q := by
    intro q
    rw [appendChild_get, hmpid]
    rfl
  have hocc3 : ∀ x, childOcc (appendChild (tp.components ++ [(cidOf n, comp)]) pid (cidOf n)) x =
      childOcc tp.components x + (if cidOf n = x then 1 else 0) := by
    intro x
    rw [childOcc_appendChild, childOcc_append]
    rw [show (dictGet (tp.components ++ [(cidOf n, comp)]) pid).isSome = true from by
      rw [hmpid]; rfl]
    rw [show childOcc [(cidOf n, comp)] x = 0 from by
      show comp.children.count x + 0 = 0
      rw [hch]
      rfl]
    simp
  have hparmem := dictGet_mem _ _ _ hres
  have hparchildfresh : par.children.count (cidOf n) = 0 :=
    List.count_eq_zero.mpr (fun hmem => by
      obtain ⟨j, hj, he⟩ := hI.children_lt _ _ hparmem _ hmem
      have := cidOf_inj _ _ he
      omega)
  refine ⟨⟨?_, ?_, ?_, ?_⟩, ?_, ?_⟩
  · intro k c hm
    rw [hc2] at hm
    obtain ⟨c0, hc0, _⟩ := appendChild_mem _ _ _ _ _ hm
    rcases List.mem_append.mp hc0 with hc0 | hc0
    · obtain ⟨j, hj, he⟩ := hI.keys_lt _ _ hc0
      exact ⟨j, by omega, he⟩
    · injection List.mem_singleton.mp hc0 with hk _
      exact ⟨n, by omega, hk⟩
  · intro k c hm x hx
    rw [hc2] at hm
    obtain ⟨c0, hc0, hor⟩ := appendChild_mem _ _ _ _ _ hm
    have hxin : x ∈ c0.children ∨ x = cidOf n := by
      rcases hor with rfl | ⟨hkp, rfl⟩
      · exact Or.inl hx
      · rcases List.mem_append.mp hx with hx | hx
        · exact Or.inl hx
        · exact Or.inr (List.mem_singleton.mp hx)
    rcases hxin with hx0 | rfl
    · rcases List.mem_append.mp hc0 with hc0 | hc0
      · obtain ⟨j, hj, he⟩ := hI.children_lt _ _ hc0 x hx0
        exact ⟨j, by omega, he⟩
      · injection List.mem_singleton.mp hc0 with _ hcc
        rw [hcc, hch] at hx0
        exact absurd hx0 (List.not_mem_nil x)
    · exact ⟨n, by omega, rfl⟩
  · intro x hx
    rw [hr2] at hx
    obtain ⟨j, hj, he⟩ := hI.roots_lt _ hx
    exact ⟨j, by omega, he⟩
  · intro k c hm
    rw [hc2] at hm
    rw [hc2, hr2]
    obtain ⟨c0, hc0, hor⟩ := appendChild_mem _ _ _ _ _ hm
    have hcparent : c.parent = c0.parent := by
      rcases hor with rfl | ⟨_, rfl⟩ <;> rfl
    rcases List.mem_append.mp hc0 with hc0 | hc0
    · -- an existing component
      have hkne := stored_key_ne_fresh n tp hI k c0 hc0
      have hocck : childOcc (appendChild (tp.components ++ [(cidOf n, comp)]) pid (cidOf n)) k =
          childOcc tp.components k := by
        rw [hocc3, if_neg (fun h => hkne h.symm)]
        omega
      constructor
      · intro q hq
        rw [hcparent] at hq
        obtain ⟨⟨par0, hq0, hcnt0⟩, hocc0, hroc0⟩ := (hI.linked _ _ hc0).1 q hq
        refine ⟨?_, ?_, ?_⟩
        · by_cases hqp : q = pid
          · subst hqp
            have hpar0 : par0 = par := by
              rw [hq0] at hres
              injection hres
            refine ⟨{ par with children := par.children ++ [cidOf n] }, ?_, ?_⟩
            · rw [hget3, if_pos rfl]
            · show (par.children ++ [cidOf n]).count k = 1
              rw [List.count_append]
              rw [show [cidOf n].count k = 0 from List.count_eq_zero.mpr
                (fun hmem => hkne (List.mem_singleton.mp hmem))]
              rw [← hpar0, hcnt0]
          · refine ⟨par0, ?_, hcnt0⟩
            rw [hget3, if_neg hqp]
            exact happend _ _ hq0
        · rw [hocck, hocc0]
        · rw [hroc0]
      · intro hq
        rw [hcparent] at hq
        obtain ⟨hroc0, hocc0⟩ := (hI.linked _ _ hc0).2 hq
        refine ⟨?_, ?_⟩
        · rw [hroc0]
        · rw [hocck, hocc0]
    · -- the newly attached component
      injection List.mem_singleton.mp hc0 with hk hcc
      subst hk
      have hc : c = comp := by
        rcases hor with rfl | ⟨hkp, _⟩
        · exact hcc
        · exact absurd hkp.symm hpidne
      subst hc
      rw [hcc] at hcparent
      constructor
      · intro q hq
        rw [hcparent, hpar] at hq
        injection hq with hq
        subst hq
        refine ⟨⟨{ par with children := par.children ++ [cidOf n] }, ?_, ?_⟩, ?_, ?_⟩
        · rw [hget3, if_pos rfl]
        · show (par.children ++ [cidOf n]).count (cidOf n) = 1
          rw [List.count_append, hparchildfresh]
          simp
        · rw [hocc3, if_pos rfl, fresh_childOcc_zero n tp hI]
        · exact fresh_roots_zero n tp hI
      · intro hq
        rw [hcparent, hpar] at hq
        exact absurd hq (by simp)
  · rw [hc2, hget3, if_neg (fun h => hpidne h.symm)]
    exact hmcid
  · intro k hk
    rw [hc2, hget3]
    by_cases hkp : k = pid
    · rw [if_pos hkp]
      rfl
    · rw [if_neg hkp]
      cases hdg : dictGet tp.components k with
      | none => rw [hdg] at hk; simp at hk
      | some v => rw [happend _ _ hdg]; rfl

/-- Every dispatch branch of the component extractor yields an empty
children list. -/
theorem pce_children (fuel : Nat) (id : String) (elem : XML) :
    (parse_component_element fuel id elem).children = [] := by
  dsimp only [parse_component_element]
  split_ifs <;> rfl

/-- Validity of a loop-context id: counter-generated below `n` and resolving
in the current component map. -/
def CtxOK (n : Nat) (tp : JMXTestPlan) : Option String → Prop
  | none => True
  | some cid => (∃ j, j < n ∧ cid = cidOf j) ∧ (dictGet tp.components cid).isSome = true

theorem ctxOK_mono (o : Option String) (n1 n2 : Nat) (tp1 tp2 : JMXTestPlan)
    (hle : n1 ≤ n2)
    (hmono : ∀ k, (dictGet tp1.components k).isSome → (dictGet tp2.components k).isSome)
    (h : CtxOK n1 tp1 o) : CtxOK n2 tp2 o := by
  cases o with
  | none => trivial
  | some cid =>
      obtain ⟨⟨j, hj, he⟩, hs⟩ := h
      exact ⟨⟨j, by omega, he⟩, hmono _ hs⟩

/-- The parse walk preserves the tree invariant, only increases the counter,
and never removes a key. -/
theorem parseLoop_inv (fuel : Nat) :
    ∀ (xs : List XML) (cur parent : Option String) (n : Nat) (tp : JMXTestPlan),
      PInv n tp → CtxOK n tp parent → CtxOK n tp cur →
      PInv (parseLoop fuel xs cur parent n tp).1 (parseLoop fuel xs cur parent n tp).2
      ∧ n ≤ (parseLoop fuel xs cur parent n tp).1
      ∧ (∀ k, (dictGet tp.components k).isSome →
          (dictGet (parseLoop fuel xs cur parent n tp).2.components k).isSome) := by
  induction fuel with
  | zero =>
      intro xs cur parent n tp hI _ _
      exact ⟨hI, Nat.le_refl n, fun k hk => hk⟩
  | succ fuel ih =>
      intro xs cur parent n tp hI hpar hcur
      cases xs with
      | nil => exact ⟨hI, Nat.le_refl n, fun k hk => hk⟩
      | cons child rest =>
          by_cases htag : xmlTag child = "hashTree"
          · cases hcu : cur with
            | none =>
                have heq : parseLoop (fuel + 1) (child :: rest) none parent n tp =
                    parseLoop fuel rest none parent n tp := by
                  show (if xmlTag child = "hashTree" then _ else _) = _
                  rw [if_pos htag]
                rw [heq]
                exact ih rest none parent n tp hI hpar trivial
            | some cid =>
                have hcur2 : CtxOK n tp (some cid) := by rw [hcu] at hcur; exact hcur
                have h1 := ih (xmlChildren child) none (some cid) n tp hI hcur2 trivial
                have heq : parseLoop (fuel + 1) (child :: rest) (some cid) parent n tp =
                    parseLoop fuel rest (some cid) parent
                      (parseLoop fuel (xmlChildren child) none (some cid) n tp).1
                      (parseLoop fuel (xmlChildren child) none (some cid) n tp).2 := by
                  show (if xmlTag child = "hashTree" then _ else _) = _
                  rw [if_pos htag]
                have h2 := ih rest (some cid) parent _ _ h1.1
                  (ctxOK_mono parent n _ tp _ h1.2.1 h1.2.2 hpar)
                  (ctxOK_mono (some cid) n _ tp _ h1.2.1 h1.2.2 hcur2)
                rw [heq]
                exact ⟨h2.1, Nat.le_trans h1.2.1 h2.2.1,
                  fun k hk => h2.2.2 k (h1.2.2 k hk)⟩
          · have hch : ({ parse_component_element fuel (cidOf n) child with
                parent := parent } : JMXComponent).children = [] := by
              show (parse_component_element fuel (cidOf n) child).children = []
              exact pce_children fuel (cidOf n) child
            have heq : parseLoop (fuel + 1) (child :: rest) cur parent n tp =
                parseLoop fuel rest (some (cidOf n)) parent (n + 1)
                  (attachComponent (cidOf n) parent
                    { parse_component_element fuel (cidOf n) child with parent := parent } tp) := by
              show (if xmlTag child = "hashTree" then _ else _) = _
              rw [if_neg htag]
            rw [heq]
            cases hpc : parent with
            | none =>
                obtain ⟨hI2, hnew, hmono⟩ := attach_inv_none n tp
                  { parse_component_element fuel (cidOf n) child with parent := none }
                  hI hch rfl
                have h2 := ih rest (some (cidOf n)) none (n + 1) _ hI2 trivial
                  ⟨⟨n, Nat.lt_succ_self n, rfl⟩, by rw [hnew]; rfl⟩
                exact ⟨h2.1, Nat.le_trans (Nat.le_succ n) h2.2.1,
                  fun k hk => h2.2.2 k (hmono k hk)⟩
            | some pid =>
                obtain ⟨⟨j, hj, hpj⟩, hps⟩ := by rw [hpc] at hpar; exact hpar
                obtain ⟨par, hres⟩ := Option.isSome_iff_exists.mp hps
                obtain ⟨hI2, hnew, hmono⟩ := attach_inv_some n tp
                  { parse_component_element fuel (cidOf n) child with parent := some pid }
                  pid par hI hch rfl ⟨j, hj, hpj⟩ hres
                have h2 := ih rest (some (cidOf n)) (some pid) (n + 1) _ hI2
                  (by
                    refine ⟨⟨j, by omega, hpj⟩, ?_⟩
                    exact hmono pid (by rw [hres]; rfl))
                  ⟨⟨n, Nat.lt_succ_self n, rfl⟩, by rw [hnew]; rfl⟩
                exact ⟨h2.1, Nat.le_trans (Nat.le_succ n) h2.2.1,
                  fun k hk => h2.2.2 k (hmono k hk)⟩

/-- The empty imported plan satisfies the invariant at counter 1. -/
theorem pinv_tp0 : PInv 1
    { id := cidOf 0, name := "Imported Test Plan", components := [], root_components := [] } := by
  constructor
  · intro k c h; simp at h
  · intro k c h; simp at h
  · intro x hx; simp at hx
  · intro k c h; simp at h

/-- C9: every plan returned by a successful parse satisfies the structural
tree invariants: a component with a parent id finds that id in the component
map and occurs exactly once in that parent's children list (and in no root
slot); a component with no parent occurs exactly once in the root list and
in no children list. -/
theorem c9_parse_invariants (s : String) (tp : JMXTestPlan)
    (h : parse_jmx_xml s = some tp) :
    ∀ k c, (k, c) ∈ tp.components →
      (∀ pid, c.parent = some pid →
        (∃ par, dictGet tp.components pid = some par ∧ par.children.count k = 1)
        ∧ tp.root_components.count k = 0)
      ∧ (c.parent = none →
        tp.root_components.count k = 1 ∧ childOcc tp.components k = 0) := by
  cases hroot : ET_fromstring s with
  | none =>
      simp only [parse_jmx_xml, hroot] at h
      exact absurd h (by simp)
  | some root =>
      cases hfc : findChild root "hashTree" with
      | none =>
          simp only [parse_jmx_xml, hroot, hfc, Option.some.injEq] at h
          intro k c hmem
          rw [← h] at hmem
          simp at hmem
      | some ht =>
          simp only [parse_jmx_xml, parse_hash_tree, hroot, hfc, Option.some.injEq] at h
          have hinv := (parseLoop_inv 1000000 (xmlChildren ht) none none 1
            { id := cidOf 0, name := "Imported Test Plan",
              components := [], root_components := [] }
            pinv_tp0 trivial trivial).1
          rw [← h]
          intro k c hmem
          have hl := hinv.linked k c hmem
          exact ⟨fun pid hp => ⟨(hl.1 pid hp).1, (hl.1 pid hp).2.2⟩, hl.2⟩

/-- A small source document for the parse-invariant check: a test plan with
one thread group inside its wrapper. -/
def c9_doc : String := "<jmeterTestPlan><hashTree><TestPlan testclass=\"TestPlan\" testname=\"TP9\"></TestPlan><hashTree><ThreadGroup testclass=\"ThreadGroup\" testname=\"T9\"></ThreadGroup><hashTree/></hashTree></hashTree></jmeterTestPlan>"

/-- The thread-group component produced from `c9_doc`. -/
def c9_comp2 : JMXComponent :=
  { id := "comp_2", type := "thread_group", name := "T9",
    properties := [("name", .vStr "T9"), ("num_threads", .vInt 1), ("ramp_time", .vInt 1),
      ("loops", .vInt 1), ("continue_forever", .vBool false),
      ("on_sample_error", .vStr "continue"), ("scheduler", .vBool false),
      ("duration", .vStr ""), ("delay", .vStr "")],
    children := [], parent := some "comp_1" }

/-- The plan produced from `c9_doc`. -/
def c9_tp : JMXTestPlan :=
  { id := "comp_0", name := "TP9",
    components := [("comp_1",
      { id := "comp_1", type := "test_plan", name := "TP9",
        properties := [("name", .vStr "TP9"), ("comments", .vStr ""),
          ("functional_mode", .vBool false), ("teardown_on_shutdown", .vBool true),
          ("serialize_threadgroups", .vBool false)],
        children := ["comp_2"], parent := none }),
      ("comp_2", c9_comp2)],
    root_components := ["comp_1"] }

set_option maxRecDepth 1000000 in
/-- Witness for C9: parsing `c9_doc` yields `c9_tp`, whose thread group has a
resolving parent holding its id exactly once, with no root slot. -/
theorem c9_parse_invariants_witness :
    (∃ par, dictGet c9_tp.components "comp_1" = some par ∧
      par.children.count "comp_2" = 1)
    ∧ c9_tp.root_components.count "comp_2" = 0 :=
  (c9_parse_invariants c9_doc c9_tp (by rfl) "comp_2" c9_comp2 (by decide)).1 "comp_1" rfl
